import Mathlib

set_option maxRecDepth 100000

/-!
Verification of the encryption-at-rest and key-access-control subsystem of
the image-aes-wasm repository, as a shallow embedding in Lean.

Bytes are modelled as `Nat` values kept below 256.  The AES-256 block
cipher, SHA-256 and base64 — invoked by the source through platform
libraries (`crypto.createCipheriv`, `crypto.createHash`, `Buffer`
base64) — are modelled from the spec (§4.1 of `spec.md`: AES-256-CBC with
standard block padding, SHA-256 key derivation, `base64(wrapIV ‖
ciphertext)`), following FIPS-197 / FIPS-180-4 / RFC 4648.  Everything
else (token verification, the key cache, the security middleware, the
client-side fallback decryptor) is translated directly from the
JavaScript source.
-/

/-! ## Byte-level primitives (GF(2^8) doubling and xor algebra) -/

/-- Modelled from the spec: multiplication by x in GF(2^8) modulo the AES
polynomial x^8 + x^4 + x^3 + x + 1 (FIPS-197 §4.2.1), the `xtime`
operation of the AES block cipher used by `crypto.createCipheriv`. -/
def xtime (a : Nat) : Nat :=
  (2 * a) ^^^ (if a.testBit 7 then 283 else 0)

theorem two_mul_xor (a b : Nat) : 2 * (a ^^^ b) = 2 * a ^^^ 2 * b := by
  apply Nat.eq_of_testBit_eq
  intro i
  have h : ∀ x : Nat, 2 * x = x <<< 1 := by
    intro x; rw [Nat.shiftLeft_eq]; ring
  simp only [h, Nat.testBit_xor, Nat.testBit_shiftLeft]
  cases decide (i ≥ 1) <;> simp

theorem xor_rot (a b c : Nat) : a ^^^ (b ^^^ c) = b ^^^ (a ^^^ c) := by
  rw [← Nat.xor_assoc, Nat.xor_comm a b, Nat.xor_assoc]

/-- `xtime` is additive over xor: it is a GF(2)-linear map on bytes. -/
theorem xtime_xor (a b : Nat) : xtime (a ^^^ b) = xtime a ^^^ xtime b := by
  unfold xtime
  rw [two_mul_xor, Nat.testBit_xor]
  cases h1 : a.testBit 7 <;> cases h2 : b.testBit 7 <;>
    simp [Nat.xor_assoc, xor_rot, Nat.xor_cancel_left, Nat.xor_comm]

theorem xtime_lt : ∀ a < 256, xtime a < 256 := by decide

theorem xor_lt (a b : Nat) (ha : a < 256) (hb : b < 256) : a ^^^ b < 256 :=
  Nat.xor_lt_two_pow (n := 8) ha hb

/-! ## Bytes as an additive group of exponent two

`GF8` is `Nat` viewed additively with `+` equal to xor; the four
InvMixColumns ∘ MixColumns cancellation identities are proved here by
commutative-group normalisation and then transported back to `Nat`. -/

def GF8 : Type := Nat

instance : Zero GF8 := ⟨(0 : Nat)⟩
instance : Add GF8 := ⟨fun a b => Nat.xor a b⟩
instance : Neg GF8 := ⟨fun a => a⟩

instance : AddCommGroup GF8 where
  add_assoc := Nat.xor_assoc
  add_comm := Nat.xor_comm
  zero_add := Nat.zero_xor
  add_zero := Nat.xor_zero
  neg_add_cancel := Nat.xor_self
  nsmul := nsmulRec
  zsmul := zsmulRec

def gxt (a : GF8) : GF8 := xtime a

theorem gxt_add (a b : GF8) : gxt (a + b) = gxt a + gxt b := xtime_xor a b

theorem gf8_add_self (x : GF8) : x + x = 0 := Nat.xor_self x

theorem gf8_two_zsmul (x : GF8) : (2 : ℤ) • x = 0 := by
  rw [two_zsmul]; exact gf8_add_self x

theorem gf8_three_zsmul (x : GF8) : (3 : ℤ) • x = x := by
  have h : (3 : ℤ) = 2 + 1 := by norm_num
  rw [h, add_zsmul, gf8_two_zsmul, one_zsmul, zero_add]

theorem gf8_four_zsmul (x : GF8) : (4 : ℤ) • x = 0 := by
  have h : (4 : ℤ) = 2 + 2 := by norm_num
  rw [h, add_zsmul, gf8_two_zsmul, zero_add]

def gm2 (a : GF8) : GF8 := gxt a
def gm3 (a : GF8) : GF8 := gxt a + a
def gm9 (a : GF8) : GF8 := gxt (gxt (gxt a)) + a
def gm11 (a : GF8) : GF8 := gxt (gxt (gxt a)) + gxt a + a
def gm13 (a : GF8) : GF8 := gxt (gxt (gxt a)) + gxt (gxt a) + a
def gm14 (a : GF8) : GF8 := gxt (gxt (gxt a)) + gxt (gxt a) + gxt a

theorem gf8_invmix0 (a0 a1 a2 a3 : GF8) :
    gm14 (gm2 a0 + gm3 a1 + a2 + a3) +
    gm11 (a0 + gm2 a1 + gm3 a2 + a3) +
    gm13 (a0 + a1 + gm2 a2 + gm3 a3) +
    gm9 (gm3 a0 + a1 + a2 + gm2 a3) = a0 := by
  simp only [gm2, gm3, gm9, gm11, gm13, gm14, gxt_add]
  abel_nf
  simp [gf8_two_zsmul, gf8_three_zsmul, gf8_four_zsmul]

theorem gf8_invmix1 (a0 a1 a2 a3 : GF8) :
    gm9 (gm2 a0 + gm3 a1 + a2 + a3) +
    gm14 (a0 + gm2 a1 + gm3 a2 + a3) +
    gm11 (a0 + a1 + gm2 a2 + gm3 a3) +
    gm13 (gm3 a0 + a1 + a2 + gm2 a3) = a1 := by
  simp only [gm2, gm3, gm9, gm11, gm13, gm14, gxt_add]
  abel_nf
  simp [gf8_two_zsmul, gf8_three_zsmul, gf8_four_zsmul]

theorem gf8_invmix2 (a0 a1 a2 a3 : GF8) :
    gm13 (gm2 a0 + gm3 a1 + a2 + a3) +
    gm9 (a0 + gm2 a1 + gm3 a2 + a3) +
    gm14 (a0 + a1 + gm2 a2 + gm3 a3) +
    gm11 (gm3 a0 + a1 + a2 + gm2 a3) = a2 := by
  simp only [gm2, gm3, gm9, gm11, gm13, gm14, gxt_add]
  abel_nf
  simp [gf8_two_zsmul, gf8_three_zsmul, gf8_four_zsmul]

theorem gf8_invmix3 (a0 a1 a2 a3 : GF8) :
    gm11 (gm2 a0 + gm3 a1 + a2 + a3) +
    gm13 (a0 + gm2 a1 + gm3 a2 + a3) +
    gm9 (a0 + a1 + gm2 a2 + gm3 a3) +
    gm14 (gm3 a0 + a1 + a2 + gm2 a3) = a3 := by
  simp only [gm2, gm3, gm9, gm11, gm13, gm14, gxt_add]
  abel_nf
  simp [gf8_two_zsmul, gf8_three_zsmul, gf8_four_zsmul]

/-! ## The AES S-box -/

/-- Modelled from the spec: the AES S-box table (FIPS-197 Fig. 7), part of
the AES-256 block cipher that the source invokes through the platform
crypto library. -/
def sboxTable : List Nat := [
  99, 124, 119, 123, 242, 107, 111, 197, 48, 1, 103, 43, 254, 215, 171, 118,
  202, 130, 201, 125, 250, 89, 71, 240, 173, 212, 162, 175, 156, 164, 114, 192,
  183, 253, 147, 38, 54, 63, 247, 204, 52, 165, 229, 241, 113, 216, 49, 21,
  4, 199, 35, 195, 24, 150, 5, 154, 7, 18, 128, 226, 235, 39, 178, 117,
  9, 131, 44, 26, 27, 110, 90, 160, 82, 59, 214, 179, 41, 227, 47, 132,
  83, 209, 0, 237, 32, 252, 177, 91, 106, 203, 190, 57, 74, 76, 88, 207,
  208, 239, 170, 251, 67, 77, 51, 133, 69, 249, 2, 127, 80, 60, 159, 168,
  81, 163, 64, 143, 146, 157, 56, 245, 188, 182, 218, 33, 16, 255, 243, 210,
  205, 12, 19, 236, 95, 151, 68, 23, 196, 167, 126, 61, 100, 93, 25, 115,
  96, 129, 79, 220, 34, 42, 144, 136, 70, 238, 184, 20, 222, 94, 11, 219,
  224, 50, 58, 10, 73, 6, 36, 92, 194, 211, 172, 98, 145, 149, 228, 121,
  231, 200, 55, 109, 141, 213, 78, 169, 108, 86, 244, 234, 101, 122, 174, 8,
  186, 120, 37, 46, 28, 166, 180, 198, 232, 221, 116, 31, 75, 189, 139, 138,
  112, 62, 181, 102, 72, 3, 246, 14, 97, 53, 87, 185, 134, 193, 29, 158,
  225, 248, 152, 17, 105, 217, 142, 148, 155, 30, 135, 233, 206, 85, 40, 223,
  140, 161, 137, 13, 191, 230, 66, 104, 65, 153, 45, 15, 176, 84, 187, 22
]

/-- Modelled from the spec: the inverse AES S-box table (FIPS-197 Fig. 14). -/
def invSboxTable : List Nat := [
  82, 9, 106, 213, 48, 54, 165, 56, 191, 64, 163, 158, 129, 243, 215, 251,
  124, 227, 57, 130, 155, 47, 255, 135, 52, 142, 67, 68, 196, 222, 233, 203,
  84, 123, 148, 50, 166, 194, 35, 61, 238, 76, 149, 11, 66, 250, 195, 78,
  8, 46, 161, 102, 40, 217, 36, 178, 118, 91, 162, 73, 109, 139, 209, 37,
  114, 248, 246, 100, 134, 104, 152, 22, 212, 164, 92, 204, 93, 101, 182, 146,
  108, 112, 72, 80, 253, 237, 185, 218, 94, 21, 70, 87, 167, 141, 157, 132,
  144, 216, 171, 0, 140, 188, 211, 10, 247, 228, 88, 5, 184, 179, 69, 6,
  208, 44, 30, 143, 202, 63, 15, 2, 193, 175, 189, 3, 1, 19, 138, 107,
  58, 145, 17, 65, 79, 103, 220, 234, 151, 242, 207, 206, 240, 180, 230, 115,
  150, 172, 116, 34, 231, 173, 53, 133, 226, 249, 55, 232, 28, 117, 223, 110,
  71, 241, 26, 113, 29, 41, 197, 137, 111, 183, 98, 14, 170, 24, 190, 27,
  252, 86, 62, 75, 198, 210, 121, 32, 154, 219, 192, 254, 120, 205, 90, 244,
  31, 221, 168, 51, 136, 7, 199, 49, 177, 18, 16, 89, 39, 128, 236, 95,
  96, 81, 127, 169, 25, 181, 74, 13, 45, 229, 122, 159, 147, 201, 156, 239,
  160, 224, 59, 77, 174, 42, 245, 176, 200, 235, 187, 60, 131, 83, 153, 97,
  23, 43, 4, 126, 186, 119, 214, 38, 225, 105, 20, 99, 85, 33, 12, 125
]

def sbox (a : Nat) : Nat := sboxTable.getD a 0

def invSbox (a : Nat) : Nat := invSboxTable.getD a 0

theorem invSbox_sbox : ∀ a < 256, invSbox (sbox a) = a := by decide

theorem sbox_lt : ∀ a < 256, sbox a < 256 := by decide


/-! ## The AES state

A 16-byte block in the byte order of the cipher input; bytes `b0..b3`
form column 0 of the AES state, `b4..b7` column 1, and so on
(FIPS-197 §3.4). -/

structure Block where
  (b0 b1 b2 b3 b4 b5 b6 b7 : Nat)
  (b8 b9 b10 b11 b12 b13 b14 b15 : Nat)
deriving Repr, DecidableEq

def Block.Valid (s : Block) : Prop :=
  s.b0 < 256 ∧ s.b1 < 256 ∧ s.b2 < 256 ∧ s.b3 < 256 ∧ s.b4 < 256 ∧ s.b5 < 256 ∧ s.b6 < 256 ∧ s.b7 < 256 ∧ s.b8 < 256 ∧ s.b9 < 256 ∧ s.b10 < 256 ∧ s.b11 < 256 ∧ s.b12 < 256 ∧ s.b13 < 256 ∧ s.b14 < 256 ∧ s.b15 < 256

instance (s : Block) : Decidable s.Valid := by unfold Block.Valid; infer_instance

def zeroBlock : Block := ⟨0, 0, 0, 0, 0, 0, 0, 0, 0, 0, 0, 0, 0, 0, 0, 0⟩

theorem zeroBlock_valid : zeroBlock.Valid := by decide

/-- Byte-wise xor of two blocks (AddRoundKey, FIPS-197 §5.1.4). -/
def xorBlock (s k : Block) : Block :=
  ⟨s.b0 ^^^ k.b0, s.b1 ^^^ k.b1, s.b2 ^^^ k.b2, s.b3 ^^^ k.b3, s.b4 ^^^ k.b4, s.b5 ^^^ k.b5, s.b6 ^^^ k.b6, s.b7 ^^^ k.b7, s.b8 ^^^ k.b8, s.b9 ^^^ k.b9, s.b10 ^^^ k.b10, s.b11 ^^^ k.b11, s.b12 ^^^ k.b12, s.b13 ^^^ k.b13, s.b14 ^^^ k.b14, s.b15 ^^^ k.b15⟩

/-- SubBytes (FIPS-197 §5.1.1). -/
def subBytes (s : Block) : Block :=
  ⟨sbox s.b0, sbox s.b1, sbox s.b2, sbox s.b3, sbox s.b4, sbox s.b5, sbox s.b6, sbox s.b7, sbox s.b8, sbox s.b9, sbox s.b10, sbox s.b11, sbox s.b12, sbox s.b13, sbox s.b14, sbox s.b15⟩

/-- InvSubBytes (FIPS-197 §5.3.2). -/
def invSubBytes (s : Block) : Block :=
  ⟨invSbox s.b0, invSbox s.b1, invSbox s.b2, invSbox s.b3, invSbox s.b4, invSbox s.b5, invSbox s.b6, invSbox s.b7, invSbox s.b8, invSbox s.b9, invSbox s.b10, invSbox s.b11, invSbox s.b12, invSbox s.b13, invSbox s.b14, invSbox s.b15⟩

/-- ShiftRows: row r of the state is rotated left by r (FIPS-197 §5.1.2). -/
def shiftRows (s : Block) : Block :=
  ⟨s.b0, s.b5, s.b10, s.b15, s.b4, s.b9, s.b14, s.b3, s.b8, s.b13, s.b2, s.b7, s.b12, s.b1, s.b6, s.b11⟩

/-- InvShiftRows: row r rotated right by r (FIPS-197 §5.3.1). -/
def invShiftRows (s : Block) : Block :=
  ⟨s.b0, s.b13, s.b10, s.b7, s.b4, s.b1, s.b14, s.b11, s.b8, s.b5, s.b2, s.b15, s.b12, s.b9, s.b6, s.b3⟩

/-- GF(2^8) multiplication by the fixed MixColumns coefficients
(FIPS-197 §4.2), expressed through `xtime`. -/
def mul2 (a : Nat) : Nat := xtime a
def mul3 (a : Nat) : Nat := xtime a ^^^ a
def mul9 (a : Nat) : Nat := xtime (xtime (xtime a)) ^^^ a
def mul11 (a : Nat) : Nat := xtime (xtime (xtime a)) ^^^ xtime a ^^^ a
def mul13 (a : Nat) : Nat := xtime (xtime (xtime a)) ^^^ xtime (xtime a) ^^^ a
def mul14 (a : Nat) : Nat := xtime (xtime (xtime a)) ^^^ xtime (xtime a) ^^^ xtime a

/-- MixColumns (FIPS-197 §5.1.3). -/
def mixColumns (s : Block) : Block :=
  ⟨mul2 s.b0 ^^^ mul3 s.b1 ^^^ s.b2 ^^^ s.b3,
   s.b0 ^^^ mul2 s.b1 ^^^ mul3 s.b2 ^^^ s.b3,
   s.b0 ^^^ s.b1 ^^^ mul2 s.b2 ^^^ mul3 s.b3,
   mul3 s.b0 ^^^ s.b1 ^^^ s.b2 ^^^ mul2 s.b3,
   mul2 s.b4 ^^^ mul3 s.b5 ^^^ s.b6 ^^^ s.b7,
   s.b4 ^^^ mul2 s.b5 ^^^ mul3 s.b6 ^^^ s.b7,
   s.b4 ^^^ s.b5 ^^^ mul2 s.b6 ^^^ mul3 s.b7,
   mul3 s.b4 ^^^ s.b5 ^^^ s.b6 ^^^ mul2 s.b7,
   mul2 s.b8 ^^^ mul3 s.b9 ^^^ s.b10 ^^^ s.b11,
   s.b8 ^^^ mul2 s.b9 ^^^ mul3 s.b10 ^^^ s.b11,
   s.b8 ^^^ s.b9 ^^^ mul2 s.b10 ^^^ mul3 s.b11,
   mul3 s.b8 ^^^ s.b9 ^^^ s.b10 ^^^ mul2 s.b11,
   mul2 s.b12 ^^^ mul3 s.b13 ^^^ s.b14 ^^^ s.b15,
   s.b12 ^^^ mul2 s.b13 ^^^ mul3 s.b14 ^^^ s.b15,
   s.b12 ^^^ s.b13 ^^^ mul2 s.b14 ^^^ mul3 s.b15,
   mul3 s.b12 ^^^ s.b13 ^^^ s.b14 ^^^ mul2 s.b15⟩

/-- InvMixColumns (FIPS-197 §5.3.3). -/
def invMixColumns (s : Block) : Block :=
  ⟨mul14 s.b0 ^^^ mul11 s.b1 ^^^ mul13 s.b2 ^^^ mul9 s.b3,
   mul9 s.b0 ^^^ mul14 s.b1 ^^^ mul11 s.b2 ^^^ mul13 s.b3,
   mul13 s.b0 ^^^ mul9 s.b1 ^^^ mul14 s.b2 ^^^ mul11 s.b3,
   mul11 s.b0 ^^^ mul13 s.b1 ^^^ mul9 s.b2 ^^^ mul14 s.b3,
   mul14 s.b4 ^^^ mul11 s.b5 ^^^ mul13 s.b6 ^^^ mul9 s.b7,
   mul9 s.b4 ^^^ mul14 s.b5 ^^^ mul11 s.b6 ^^^ mul13 s.b7,
   mul13 s.b4 ^^^ mul9 s.b5 ^^^ mul14 s.b6 ^^^ mul11 s.b7,
   mul11 s.b4 ^^^ mul13 s.b5 ^^^ mul9 s.b6 ^^^ mul14 s.b7,
   mul14 s.b8 ^^^ mul11 s.b9 ^^^ mul13 s.b10 ^^^ mul9 s.b11,
   mul9 s.b8 ^^^ mul14 s.b9 ^^^ mul11 s.b10 ^^^ mul13 s.b11,
   mul13 s.b8 ^^^ mul9 s.b9 ^^^ mul14 s.b10 ^^^ mul11 s.b11,
   mul11 s.b8 ^^^ mul13 s.b9 ^^^ mul9 s.b10 ^^^ mul14 s.b11,
   mul14 s.b12 ^^^ mul11 s.b13 ^^^ mul13 s.b14 ^^^ mul9 s.b15,
   mul9 s.b12 ^^^ mul14 s.b13 ^^^ mul11 s.b14 ^^^ mul13 s.b15,
   mul13 s.b12 ^^^ mul9 s.b13 ^^^ mul14 s.b14 ^^^ mul11 s.b15,
   mul11 s.b12 ^^^ mul13 s.b13 ^^^ mul9 s.b14 ^^^ mul14 s.b15⟩

/-! ## Validity preservation and inversion of the round operations -/

theorem xorBlock_valid {s k : Block} (hs : s.Valid) (hk : k.Valid) : (xorBlock s k).Valid := by
  obtain ⟨h0, h1, h2, h3, h4, h5, h6, h7, h8, h9, h10, h11, h12, h13, h14, h15⟩ := hs
  obtain ⟨g0, g1, g2, g3, g4, g5, g6, g7, g8, g9, g10, g11, g12, g13, g14, g15⟩ := hk
  exact ⟨xor_lt _ _ h0 g0, xor_lt _ _ h1 g1, xor_lt _ _ h2 g2, xor_lt _ _ h3 g3, xor_lt _ _ h4 g4, xor_lt _ _ h5 g5, xor_lt _ _ h6 g6, xor_lt _ _ h7 g7, xor_lt _ _ h8 g8, xor_lt _ _ h9 g9, xor_lt _ _ h10 g10, xor_lt _ _ h11 g11, xor_lt _ _ h12 g12, xor_lt _ _ h13 g13, xor_lt _ _ h14 g14, xor_lt _ _ h15 g15⟩

theorem subBytes_valid {s : Block} (h : s.Valid) : (subBytes s).Valid := by
  obtain ⟨h0, h1, h2, h3, h4, h5, h6, h7, h8, h9, h10, h11, h12, h13, h14, h15⟩ := h
  exact ⟨sbox_lt _ h0, sbox_lt _ h1, sbox_lt _ h2, sbox_lt _ h3, sbox_lt _ h4, sbox_lt _ h5, sbox_lt _ h6, sbox_lt _ h7, sbox_lt _ h8, sbox_lt _ h9, sbox_lt _ h10, sbox_lt _ h11, sbox_lt _ h12, sbox_lt _ h13, sbox_lt _ h14, sbox_lt _ h15⟩

theorem shiftRows_valid {s : Block} (h : s.Valid) : (shiftRows s).Valid := by
  obtain ⟨h0, h1, h2, h3, h4, h5, h6, h7, h8, h9, h10, h11, h12, h13, h14, h15⟩ := h
  exact ⟨h0, h5, h10, h15, h4, h9, h14, h3, h8, h13, h2, h7, h12, h1, h6, h11⟩

theorem mulc_lt {a : Nat} (h : a < 256) :
    mul2 a < 256 ∧ mul3 a < 256 ∧ mul9 a < 256 ∧ mul11 a < 256 ∧ mul13 a < 256 ∧ mul14 a < 256 := by
  have h1 := xtime_lt a h
  have h2 := xtime_lt _ h1
  have h3 := xtime_lt _ h2
  exact ⟨h1, xor_lt _ _ h1 h, xor_lt _ _ h3 h, xor_lt _ _ (xor_lt _ _ h3 h1) h,
    xor_lt _ _ (xor_lt _ _ h3 h2) h, xor_lt _ _ (xor_lt _ _ h3 h2) h1⟩

theorem mixColumns_valid {s : Block} (h : s.Valid) : (mixColumns s).Valid := by
  obtain ⟨h0, h1, h2, h3, h4, h5, h6, h7, h8, h9, h10, h11, h12, h13, h14, h15⟩ := h
  refine ⟨?_, ?_, ?_, ?_, ?_, ?_, ?_, ?_, ?_, ?_, ?_, ?_, ?_, ?_, ?_, ?_⟩ <;>
  · first
    | exact xor_lt _ _ (xor_lt _ _ (xor_lt _ _ (mulc_lt (by assumption)).1 (mulc_lt (by assumption)).2.1) (by assumption)) (by assumption)
    | exact xor_lt _ _ (xor_lt _ _ (xor_lt _ _ (by assumption) (mulc_lt (by assumption)).1) (mulc_lt (by assumption)).2.1) (by assumption)
    | exact xor_lt _ _ (xor_lt _ _ (xor_lt _ _ (by assumption) (by assumption)) (mulc_lt (by assumption)).1) (mulc_lt (by assumption)).2.1
    | exact xor_lt _ _ (xor_lt _ _ (xor_lt _ _ (mulc_lt (by assumption)).2.1 (by assumption)) (by assumption)) (mulc_lt (by assumption)).1

theorem invmix_byte0 (a0 a1 a2 a3 : Nat) :
    mul14 (mul2 a0 ^^^ mul3 a1 ^^^ a2 ^^^ a3) ^^^
    mul11 (a0 ^^^ mul2 a1 ^^^ mul3 a2 ^^^ a3) ^^^
    mul13 (a0 ^^^ a1 ^^^ mul2 a2 ^^^ mul3 a3) ^^^
    mul9 (mul3 a0 ^^^ a1 ^^^ a2 ^^^ mul2 a3) = a0 :=
  gf8_invmix0 a0 a1 a2 a3

theorem invmix_byte1 (a0 a1 a2 a3 : Nat) :
    mul9 (mul2 a0 ^^^ mul3 a1 ^^^ a2 ^^^ a3) ^^^
    mul14 (a0 ^^^ mul2 a1 ^^^ mul3 a2 ^^^ a3) ^^^
    mul11 (a0 ^^^ a1 ^^^ mul2 a2 ^^^ mul3 a3) ^^^
    mul13 (mul3 a0 ^^^ a1 ^^^ a2 ^^^ mul2 a3) = a1 :=
  gf8_invmix1 a0 a1 a2 a3

theorem invmix_byte2 (a0 a1 a2 a3 : Nat) :
    mul13 (mul2 a0 ^^^ mul3 a1 ^^^ a2 ^^^ a3) ^^^
    mul9 (a0 ^^^ mul2 a1 ^^^ mul3 a2 ^^^ a3) ^^^
    mul14 (a0 ^^^ a1 ^^^ mul2 a2 ^^^ mul3 a3) ^^^
    mul11 (mul3 a0 ^^^ a1 ^^^ a2 ^^^ mul2 a3) = a2 :=
  gf8_invmix2 a0 a1 a2 a3

theorem invmix_byte3 (a0 a1 a2 a3 : Nat) :
    mul11 (mul2 a0 ^^^ mul3 a1 ^^^ a2 ^^^ a3) ^^^
    mul13 (a0 ^^^ mul2 a1 ^^^ mul3 a2 ^^^ a3) ^^^
    mul9 (a0 ^^^ a1 ^^^ mul2 a2 ^^^ mul3 a3) ^^^
    mul14 (mul3 a0 ^^^ a1 ^^^ a2 ^^^ mul2 a3) = a3 :=
  gf8_invmix3 a0 a1 a2 a3

theorem invMixColumns_mixColumns (s : Block) : invMixColumns (mixColumns s) = s := by
  cases s
  simp only [mixColumns, invMixColumns, Block.mk.injEq]
  exact ⟨invmix_byte0 _ _ _ _, invmix_byte1 _ _ _ _, invmix_byte2 _ _ _ _, invmix_byte3 _ _ _ _,
    invmix_byte0 _ _ _ _, invmix_byte1 _ _ _ _, invmix_byte2 _ _ _ _, invmix_byte3 _ _ _ _,
    invmix_byte0 _ _ _ _, invmix_byte1 _ _ _ _, invmix_byte2 _ _ _ _, invmix_byte3 _ _ _ _,
    invmix_byte0 _ _ _ _, invmix_byte1 _ _ _ _, invmix_byte2 _ _ _ _, invmix_byte3 _ _ _ _⟩

theorem invShiftRows_shiftRows (s : Block) : invShiftRows (shiftRows s) = s := rfl

theorem invSubBytes_subBytes {s : Block} (h : s.Valid) : invSubBytes (subBytes s) = s := by
  obtain ⟨h0, h1, h2, h3, h4, h5, h6, h7, h8, h9, h10, h11, h12, h13, h14, h15⟩ := h
  cases s
  simp only [subBytes, invSubBytes, Block.mk.injEq]
  exact ⟨invSbox_sbox _ h0, invSbox_sbox _ h1, invSbox_sbox _ h2, invSbox_sbox _ h3, invSbox_sbox _ h4, invSbox_sbox _ h5, invSbox_sbox _ h6, invSbox_sbox _ h7, invSbox_sbox _ h8, invSbox_sbox _ h9, invSbox_sbox _ h10, invSbox_sbox _ h11, invSbox_sbox _ h12, invSbox_sbox _ h13, invSbox_sbox _ h14, invSbox_sbox _ h15⟩

theorem xorBlock_cancel (s k : Block) : xorBlock (xorBlock s k) k = s := by
  cases s; cases k
  simp only [xorBlock, Block.mk.injEq]
  exact ⟨Nat.xor_cancel_right _ _, Nat.xor_cancel_right _ _, Nat.xor_cancel_right _ _, Nat.xor_cancel_right _ _, Nat.xor_cancel_right _ _, Nat.xor_cancel_right _ _, Nat.xor_cancel_right _ _, Nat.xor_cancel_right _ _, Nat.xor_cancel_right _ _, Nat.xor_cancel_right _ _, Nat.xor_cancel_right _ _, Nat.xor_cancel_right _ _, Nat.xor_cancel_right _ _, Nat.xor_cancel_right _ _, Nat.xor_cancel_right _ _, Nat.xor_cancel_right _ _⟩

/-! ## The AES-256 key schedule (FIPS-197 §5.2) -/

structure Word4 where
  (a b c d : Nat)
deriving Repr, DecidableEq

def Word4.Valid (w : Word4) : Prop :=
  w.a < 256 ∧ w.b < 256 ∧ w.c < 256 ∧ w.d < 256

def xorWord (v w : Word4) : Word4 :=
  ⟨v.a ^^^ w.a, v.b ^^^ w.b, v.c ^^^ w.c, v.d ^^^ w.d⟩

def subWord (w : Word4) : Word4 :=
  ⟨sbox w.a, sbox w.b, sbox w.c, sbox w.d⟩

def rotWord (w : Word4) : Word4 :=
  ⟨w.b, w.c, w.d, w.a⟩

/-- Round constants Rcon[1..7]; AES-256 uses i/8 up to 7. -/
def rcon (j : Nat) : Nat := [0, 1, 2, 4, 8, 16, 32, 64].getD j 0

/-- One key-expansion step: `ws` holds the words produced so far in
reverse order, so `ws.headD` is w[i-1] and `ws.getD 7` is w[i-8],
where `i = ws.length` is the index of the word being produced. -/
def ksNext (ws : List Word4) : Word4 :=
  xorWord (ws.getD 7 ⟨0, 0, 0, 0⟩)
    (if ws.length % 8 = 0 then
      xorWord (subWord (rotWord (ws.headD ⟨0, 0, 0, 0⟩))) ⟨rcon (ws.length / 8), 0, 0, 0⟩
    else if ws.length % 8 = 4 then subWord (ws.headD ⟨0, 0, 0, 0⟩)
    else ws.headD ⟨0, 0, 0, 0⟩)

def ksAux : Nat → List Word4 → List Word4
  | 0, ws => ws
  | n + 1, ws => ksAux n (ksNext ws :: ws)

def word4At (key : List Nat) (i : Nat) : Word4 :=
  ⟨key.getD (4 * i) 0, key.getD (4 * i + 1) 0, key.getD (4 * i + 2) 0, key.getD (4 * i + 3) 0⟩

/-- The 60 words of the AES-256 key schedule, from a 32-byte key. -/
def keyExpansionWords (key : List Nat) : List Word4 :=
  (ksAux 52 [word4At key 7, word4At key 6, word4At key 5, word4At key 4,
             word4At key 3, word4At key 2, word4At key 1, word4At key 0]).reverse

/-- Group four consecutive schedule words into one round-key block
(word j is column j of the round key). -/
def wordsToBlocks : List Word4 → List Block
  | w0 :: w1 :: w2 :: w3 :: rest =>
      ⟨w0.a, w0.b, w0.c, w0.d, w1.a, w1.b, w1.c, w1.d,
       w2.a, w2.b, w2.c, w2.d, w3.a, w3.b, w3.c, w3.d⟩ :: wordsToBlocks rest
  | _ => []

/-- The fifteen AES-256 round keys. -/
def roundKeysOf (key : List Nat) : List Block :=
  wordsToBlocks (keyExpansionWords key)

/-! ## The AES-256 block cipher (FIPS-197 §5.1, §5.3) -/

def encRound (s k : Block) : Block :=
  xorBlock (mixColumns (shiftRows (subBytes s))) k

def decRound (s k : Block) : Block :=
  invSubBytes (invShiftRows (invMixColumns (xorBlock s k)))

/-- AES block encryption: initial AddRoundKey, the middle rounds, and the
final round without MixColumns. -/
def aesEncryptBlock (rks : List Block) (s : Block) : Block :=
  xorBlock
    (shiftRows (subBytes
      (((rks.drop 1).take 13).foldl encRound (xorBlock s (rks.headD zeroBlock)))))
    (rks.getD 14 zeroBlock)

/-- AES block decryption: the exact inverse sequence of transformations. -/
def aesDecryptBlock (rks : List Block) (c : Block) : Block :=
  xorBlock
    (((rks.drop 1).take 13).reverse.foldl decRound
      (invSubBytes (invShiftRows (xorBlock c (rks.getD 14 zeroBlock)))))
    (rks.headD zeroBlock)

theorem encRound_valid {s k : Block} (hs : s.Valid) (hk : k.Valid) : (encRound s k).Valid :=
  xorBlock_valid (mixColumns_valid (shiftRows_valid (subBytes_valid hs))) hk

theorem foldl_encRound_valid (l : List Block) :
    ∀ s : Block, s.Valid → (∀ k ∈ l, k.Valid) → (l.foldl encRound s).Valid := by
  induction l with
  | nil => intro s hs _; exact hs
  | cons k rest ih =>
    intro s hs hl
    simp only [List.foldl_cons]
    exact ih (encRound s k) (encRound_valid hs (hl k (List.mem_cons_self k rest)))
      (fun k' h' => hl k' (List.mem_cons_of_mem k h'))

theorem decRound_encRound {s : Block} (k : Block) (hs : s.Valid) :
    decRound (encRound s k) k = s := by
  unfold decRound encRound
  rw [xorBlock_cancel, invMixColumns_mixColumns, invShiftRows_shiftRows,
    invSubBytes_subBytes hs]

theorem foldl_decRound_encRound (l : List Block) :
    ∀ s : Block, s.Valid → (∀ k ∈ l, k.Valid) →
    l.reverse.foldl decRound (l.foldl encRound s) = s := by
  induction l with
  | nil => intro s _ _; simp
  | cons k rest ih =>
    intro s hs hl
    have hk : k.Valid := hl k (List.mem_cons_self k rest)
    have hrest : ∀ k' ∈ rest, k'.Valid := fun k' h' => hl k' (List.mem_cons_of_mem k h')
    simp only [List.foldl_cons, List.reverse_cons, List.foldl_append, List.foldl_cons,
      List.foldl_nil]
    rw [ih (encRound s k) (encRound_valid hs hk) hrest, decRound_encRound k hs]

/-- The AES-256 block cipher inverts: decryption of an encryption returns
the original block, for any valid state and valid round keys. -/
theorem aesDecryptBlock_aesEncryptBlock {rks : List Block} {s : Block}
    (hs : s.Valid) (hk : ∀ k ∈ rks, k.Valid) :
    aesDecryptBlock rks (aesEncryptBlock rks s) = s := by
  unfold aesDecryptBlock aesEncryptBlock
  have hk0 : (rks.headD zeroBlock).Valid := by
    cases rks with
    | nil => exact zeroBlock_valid
    | cons a l => exact hk a (List.mem_cons_self a l)
  have hmids : ∀ k ∈ (rks.drop 1).take 13, k.Valid := fun k h =>
    hk k (List.mem_of_mem_drop (List.mem_of_mem_take h))
  have hin : (xorBlock s (rks.headD zeroBlock)).Valid := xorBlock_valid hs hk0
  rw [xorBlock_cancel, invShiftRows_shiftRows,
    invSubBytes_subBytes (foldl_encRound_valid _ _ hin hmids),
    foldl_decRound_encRound _ _ hin hmids, xorBlock_cancel]

/-! ## Bytes ↔ blocks -/

def toBlocks : List Nat → List Block
  | b0::b1::b2::b3::b4::b5::b6::b7::b8::b9::b10::b11::b12::b13::b14::b15::rest =>
      ⟨b0, b1, b2, b3, b4, b5, b6, b7, b8, b9, b10, b11, b12, b13, b14, b15⟩ :: toBlocks rest
  | _ => []

def blockToList (b : Block) : List Nat :=
  [b.b0, b.b1, b.b2, b.b3, b.b4, b.b5, b.b6, b.b7, b.b8, b.b9, b.b10, b.b11, b.b12, b.b13, b.b14, b.b15]

def fromBlocks : List Block → List Nat
  | [] => []
  | b :: rest => blockToList b ++ fromBlocks rest

/-- A byte list whose length is a multiple of 16 is empty or splits off
sixteen leading bytes. -/
theorem list_mod16_cases (l : List Nat) (h : l.length % 16 = 0) :
    l = [] ∨ ∃ b0 b1 b2 b3 b4 b5 b6 b7 b8 b9 b10 b11 b12 b13 b14 b15 rest,
      rest.length % 16 = 0 ∧
      l = b0::b1::b2::b3::b4::b5::b6::b7::b8::b9::b10::b11::b12::b13::b14::b15::rest := by
  rcases l with _ | ⟨b0, l⟩
  · exact Or.inl rfl
  rcases l with _ | ⟨b1, l⟩
  · exfalso; simp [List.length] at h
  rcases l with _ | ⟨b2, l⟩
  · exfalso; simp [List.length] at h
  rcases l with _ | ⟨b3, l⟩
  · exfalso; simp [List.length] at h
  rcases l with _ | ⟨b4, l⟩
  · exfalso; simp [List.length] at h
  rcases l with _ | ⟨b5, l⟩
  · exfalso; simp [List.length] at h
  rcases l with _ | ⟨b6, l⟩
  · exfalso; simp [List.length] at h
  rcases l with _ | ⟨b7, l⟩
  · exfalso; simp [List.length] at h
  rcases l with _ | ⟨b8, l⟩
  · exfalso; simp [List.length] at h
  rcases l with _ | ⟨b9, l⟩
  · exfalso; simp [List.length] at h
  rcases l with _ | ⟨b10, l⟩
  · exfalso; simp [List.length] at h
  rcases l with _ | ⟨b11, l⟩
  · exfalso; simp [List.length] at h
  rcases l with _ | ⟨b12, l⟩
  · exfalso; simp [List.length] at h
  rcases l with _ | ⟨b13, l⟩
  · exfalso; simp [List.length] at h
  rcases l with _ | ⟨b14, l⟩
  · exfalso; simp [List.length] at h
  rcases l with _ | ⟨b15, l⟩
  · exfalso; simp [List.length] at h
  refine Or.inr ⟨b0, b1, b2, b3, b4, b5, b6, b7, b8, b9, b10, b11, b12, b13, b14, b15, l, ?_, rfl⟩
  simp [List.length] at h ⊢
  omega

theorem fromBlocks_toBlocks (l : List Nat) (h : l.length % 16 = 0) :
    fromBlocks (toBlocks l) = l := by
  have main : ∀ n (l : List Nat), l.length = n → l.length % 16 = 0 →
      fromBlocks (toBlocks l) = l := by
    intro n
    induction n using Nat.strong_induction_on with
    | _ n ih =>
      intro l hn hm
      rcases list_mod16_cases l hm with rfl | ⟨b0, b1, b2, b3, b4, b5, b6, b7,
        b8, b9, b10, b11, b12, b13, b14, b15, rest, hrest, rfl⟩
      · rfl
      · subst hn
        simp only [toBlocks, fromBlocks, blockToList, List.cons_append, List.nil_append,
          List.cons.injEq, true_and]
        exact ih rest.length (by simp [List.length]; omega) rest rfl hrest
  exact main l.length l rfl h

theorem toBlocks_fromBlocks (bs : List Block) : toBlocks (fromBlocks bs) = bs := by
  induction bs with
  | nil => rfl
  | cons b rest ih =>
    cases b
    simp [fromBlocks, blockToList, toBlocks, ih]

theorem toBlocks_valid (l : List Nat) (h : ∀ x ∈ l, x < 256) :
    ∀ b ∈ toBlocks l, b.Valid := by
  have main : ∀ n (l : List Nat), l.length = n → (∀ x ∈ l, x < 256) →
      ∀ b ∈ toBlocks l, b.Valid := by
    intro n
    induction n using Nat.strong_induction_on with
    | _ n ih =>
      intro l hn h
      match l, h with
      | b0::b1::b2::b3::b4::b5::b6::b7::b8::b9::b10::b11::b12::b13::b14::b15::rest, h =>
        subst hn
        simp only [toBlocks, List.mem_cons]
        rintro b (rfl | hb)
        · refine ⟨?_, ?_, ?_, ?_, ?_, ?_, ?_, ?_, ?_, ?_, ?_, ?_, ?_, ?_, ?_, ?_⟩ <;>
            exact h _ (by simp)
        · exact ih rest.length (by simp [List.length]; omega) rest rfl
            (fun x hx => h x (by simp [hx])) b hb
      | [], _ => intro b hb; simp [toBlocks] at hb
      | [b0], _ => intro b hb; simp [toBlocks] at hb
      | [b0,b1], _ => intro b hb; simp [toBlocks] at hb
      | [b0,b1,b2], _ => intro b hb; simp [toBlocks] at hb
      | [b0,b1,b2,b3], _ => intro b hb; simp [toBlocks] at hb
      | [b0,b1,b2,b3,b4], _ => intro b hb; simp [toBlocks] at hb
      | [b0,b1,b2,b3,b4,b5], _ => intro b hb; simp [toBlocks] at hb
      | [b0,b1,b2,b3,b4,b5,b6], _ => intro b hb; simp [toBlocks] at hb
      | [b0,b1,b2,b3,b4,b5,b6,b7], _ => intro b hb; simp [toBlocks] at hb
      | [b0,b1,b2,b3,b4,b5,b6,b7,b8], _ => intro b hb; simp [toBlocks] at hb
      | [b0,b1,b2,b3,b4,b5,b6,b7,b8,b9], _ => intro b hb; simp [toBlocks] at hb
      | [b0,b1,b2,b3,b4,b5,b6,b7,b8,b9,b10], _ => intro b hb; simp [toBlocks] at hb
      | [b0,b1,b2,b3,b4,b5,b6,b7,b8,b9,b10,b11], _ => intro b hb; simp [toBlocks] at hb
      | [b0,b1,b2,b3,b4,b5,b6,b7,b8,b9,b10,b11,b12], _ => intro b hb; simp [toBlocks] at hb
      | [b0,b1,b2,b3,b4,b5,b6,b7,b8,b9,b10,b11,b12,b13], _ => intro b hb; simp [toBlocks] at hb
      | [b0,b1,b2,b3,b4,b5,b6,b7,b8,b9,b10,b11,b12,b13,b14], _ => intro b hb; simp [toBlocks] at hb
  exact main l.length l rfl h

/-! ## PKCS7 padding (the "standard block padding" of spec §4.1, as applied
by `crypto.createCipheriv('aes-256-cbc', ...)`) -/

def padPkcs7 (l : List Nat) : List Nat :=
  l ++ List.replicate (16 - l.length % 16) (16 - l.length % 16)

/-- Strip and check PKCS7 padding; `none` on a padding mismatch (the
`DecryptionFailed` outcome of `decipher.final`).  The padding byte of an
empty list defaults to `0`, which fails the `1 ≤ n` check. -/
def unpadPkcs7 (l : List Nat) : Option (List Nat) :=
  if 1 ≤ l.getLastD 0 ∧ l.getLastD 0 ≤ 16 ∧ l.getLastD 0 ≤ l.length ∧
      (l.drop (l.length - l.getLastD 0)).all (· = l.getLastD 0) then
    some (l.take (l.length - l.getLastD 0))
  else
    none

theorem padPkcs7_length (l : List Nat) : (padPkcs7 l).length % 16 = 0 := by
  simp [padPkcs7, List.length_append, List.length_replicate]
  omega

theorem padPkcs7_lt (l : List Nat) (h : ∀ x ∈ l, x < 256) :
    ∀ x ∈ padPkcs7 l, x < 256 := by
  intro x hx
  rcases List.mem_append.mp hx with h1 | h2
  · exact h x h1
  · have := List.eq_of_mem_replicate h2
    omega

theorem unpadPkcs7_padPkcs7 (l : List Nat) : unpadPkcs7 (padPkcs7 l) = some l := by
  unfold unpadPkcs7 padPkcs7
  set n := 16 - l.length % 16 with hn
  have hn1 : 1 ≤ n := by omega
  have hn16 : n ≤ 16 := by omega
  have hrep : List.replicate n n ≠ [] := by
    simp [List.replicate_eq_nil_iff]; omega
  have hlast : (l ++ List.replicate n n).getLastD 0 = n := by
    rw [List.getLastD_eq_getLast?, List.getLast?_append_of_ne_nil l hrep,
      List.getLast?_replicate]
    have hne : n ≠ 0 := by omega
    simp [hne]
  have hlen : (l ++ List.replicate n n).length = l.length + n := by
    simp [List.length_append, List.length_replicate]
  have hidx : (l ++ List.replicate n n).length - n = l.length := by
    rw [hlen]; omega
  rw [hlast, hidx, List.drop_left, List.take_left]
  have hcond : 1 ≤ n ∧ n ≤ 16 ∧ n ≤ (l ++ List.replicate n n).length ∧
      ((List.replicate n n).all (· = n)) = true := by
    refine ⟨hn1, hn16, by rw [hlen]; omega, ?_⟩
    simp [List.all_eq_true]
  rw [if_pos hcond]

/-! ## Round-key validity -/

theorem getD_lt (l : List Nat) (h : ∀ x ∈ l, x < 256) (i : Nat) : l.getD i 0 < 256 := by
  rcases h' : l[i]? with _ | x
  · simp [List.getD, h']
  · have hx : x ∈ l := List.getElem?_mem h'
    have := h x hx
    simp [List.getD, h']
    omega

theorem getD_word_valid (ws : List Word4) (h : ∀ w ∈ ws, w.Valid) (i : Nat) :
    (ws.getD i ⟨0, 0, 0, 0⟩).Valid := by
  rcases h' : ws[i]? with _ | w
  · simp [List.getD, h']
    exact ⟨by decide, by decide, by decide, by decide⟩
  · have hw : w ∈ ws := List.getElem?_mem h'
    simp [List.getD, h']
    exact h w hw

theorem headD_word_valid (ws : List Word4) (h : ∀ w ∈ ws, w.Valid) :
    (ws.headD ⟨0, 0, 0, 0⟩).Valid := by
  cases ws with
  | nil => exact ⟨by decide, by decide, by decide, by decide⟩
  | cons w rest => exact h w (List.mem_cons_self w rest)

theorem xorWord_valid {v w : Word4} (hv : v.Valid) (hw : w.Valid) : (xorWord v w).Valid :=
  ⟨xor_lt _ _ hv.1 hw.1, xor_lt _ _ hv.2.1 hw.2.1, xor_lt _ _ hv.2.2.1 hw.2.2.1,
    xor_lt _ _ hv.2.2.2 hw.2.2.2⟩

theorem subWord_valid {w : Word4} (hw : w.Valid) : (subWord w).Valid :=
  ⟨sbox_lt _ hw.1, sbox_lt _ hw.2.1, sbox_lt _ hw.2.2.1, sbox_lt _ hw.2.2.2⟩

theorem rcon_lt (j : Nat) : rcon j < 256 := by
  unfold rcon
  rcases h' : ([0, 1, 2, 4, 8, 16, 32, 64] : List Nat)[j]? with _ | x
  · simp [List.getD, h']
  · have hx : x ∈ ([0, 1, 2, 4, 8, 16, 32, 64] : List Nat) := List.getElem?_mem h'
    simp [List.getD, h']
    fin_cases hx <;> omega

theorem ksNext_valid {ws : List Word4} (h : ∀ w ∈ ws, w.Valid) : (ksNext ws).Valid := by
  unfold ksNext
  have hprev := headD_word_valid ws h
  have h8 := getD_word_valid ws h 7
  have hrot : (rotWord (ws.headD ⟨0, 0, 0, 0⟩)).Valid :=
    ⟨hprev.2.1, hprev.2.2.1, hprev.2.2.2, hprev.1⟩
  split
  · exact xorWord_valid h8 (xorWord_valid (subWord_valid hrot)
      ⟨rcon_lt _, Nat.zero_lt_succ _, Nat.zero_lt_succ _, Nat.zero_lt_succ _⟩)
  · split
    · exact xorWord_valid h8 (subWord_valid hprev)
    · exact xorWord_valid h8 hprev

theorem ksAux_valid (n : Nat) (ws : List Word4) (h : ∀ w ∈ ws, w.Valid) :
    ∀ w ∈ ksAux n ws, w.Valid := by
  induction n generalizing ws with
  | zero => exact h
  | succ m ih =>
    refine ih (ksNext ws :: ws) ?_
    intro w hw
    rcases List.mem_cons.mp hw with rfl | hw'
    · exact ksNext_valid h
    · exact h w hw'

theorem word4At_valid (key : List Nat) (h : ∀ x ∈ key, x < 256) (i : Nat) :
    (word4At key i).Valid :=
  ⟨getD_lt key h _, getD_lt key h _, getD_lt key h _, getD_lt key h _⟩

theorem keyExpansionWords_valid (key : List Nat) (h : ∀ x ∈ key, x < 256) :
    ∀ w ∈ keyExpansionWords key, w.Valid := by
  unfold keyExpansionWords
  intro w hw
  have hw' := List.mem_reverse.mp hw
  refine ksAux_valid 52 _ ?_ w hw'
  intro v hv
  fin_cases hv <;> exact word4At_valid key h _

theorem wordsToBlocks_valid (ws : List Word4) (h : ∀ w ∈ ws, w.Valid) :
    ∀ b ∈ wordsToBlocks ws, b.Valid := by
  have main : ∀ n (ws : List Word4), ws.length = n → (∀ w ∈ ws, w.Valid) →
      ∀ b ∈ wordsToBlocks ws, b.Valid := by
    intro n
    induction n using Nat.strong_induction_on with
    | _ n ih =>
      intro ws hn h
      match ws with
      | w0 :: w1 :: w2 :: w3 :: rest =>
        subst hn
        intro b hb
        simp only [wordsToBlocks, List.mem_cons] at hb
        rcases hb with rfl | hb'
        · have h0 := h w0 (by simp)
          have h1 := h w1 (by simp)
          have h2 := h w2 (by simp)
          have h3 := h w3 (by simp)
          exact ⟨h0.1, h0.2.1, h0.2.2.1, h0.2.2.2, h1.1, h1.2.1, h1.2.2.1, h1.2.2.2,
            h2.1, h2.2.1, h2.2.2.1, h2.2.2.2, h3.1, h3.2.1, h3.2.2.1, h3.2.2.2⟩
        · exact ih rest.length (by simp [List.length]; omega) rest rfl
            (fun w hw => h w (by simp [hw])) b hb'
      | [] => intro b hb; simp [wordsToBlocks] at hb
      | [w0] => intro b hb; simp [wordsToBlocks] at hb
      | [w0, w1] => intro b hb; simp [wordsToBlocks] at hb
      | [w0, w1, w2] => intro b hb; simp [wordsToBlocks] at hb
  exact main ws.length ws rfl h

theorem roundKeysOf_valid (key : List Nat) (h : ∀ x ∈ key, x < 256) :
    ∀ b ∈ roundKeysOf key, b.Valid :=
  wordsToBlocks_valid _ (keyExpansionWords_valid key h)

/-! ## CBC mode (spec §4.1: a 256-bit-key block cipher in CBC mode) -/

def cbcEncryptBlocks (rks : List Block) (prev : Block) : List Block → List Block
  | [] => []
  | p :: rest =>
      let c := aesEncryptBlock rks (xorBlock p prev)
      c :: cbcEncryptBlocks rks c rest

def cbcDecryptBlocks (rks : List Block) (prev : Block) : List Block → List Block
  | [] => []
  | c :: rest => xorBlock (aesDecryptBlock rks c) prev :: cbcDecryptBlocks rks c rest

theorem aesEncryptBlock_valid {rks : List Block} {s : Block}
    (hs : s.Valid) (hk : ∀ k ∈ rks, k.Valid) : (aesEncryptBlock rks s).Valid := by
  unfold aesEncryptBlock
  have hk0 : (rks.headD zeroBlock).Valid := by
    cases rks with
    | nil => exact zeroBlock_valid
    | cons a l => exact hk a (List.mem_cons_self a l)
  have hkL : (rks.getD 14 zeroBlock).Valid := by
    rcases h' : rks[14]? with _ | b
    · simp [List.getD, h']; exact zeroBlock_valid
    · simp [List.getD, h']; exact hk b (List.getElem?_mem h')
  have hmids : ∀ k ∈ (rks.drop 1).take 13, k.Valid := fun k h =>
    hk k (List.mem_of_mem_drop (List.mem_of_mem_take h))
  exact xorBlock_valid (shiftRows_valid (subBytes_valid
    (foldl_encRound_valid _ _ (xorBlock_valid hs hk0) hmids))) hkL

theorem cbcDecryptBlocks_cbcEncryptBlocks (rks : List Block) (hk : ∀ k ∈ rks, k.Valid) :
    ∀ (ps : List Block) (prev : Block), prev.Valid → (∀ p ∈ ps, p.Valid) →
    cbcDecryptBlocks rks prev (cbcEncryptBlocks rks prev ps) = ps := by
  intro ps
  induction ps with
  | nil => intro prev _ _; rfl
  | cons p rest ih =>
    intro prev hprev hps
    have hp : p.Valid := hps p (List.mem_cons_self p rest)
    have hxor : (xorBlock p prev).Valid := xorBlock_valid hp hprev
    simp only [cbcEncryptBlocks, cbcDecryptBlocks, List.cons.injEq]
    constructor
    · rw [aesDecryptBlock_aesEncryptBlock hxor hk, xorBlock_cancel]
    · exact ih _ (aesEncryptBlock_valid hxor hk)
        (fun q hq => hps q (List.mem_cons_of_mem p hq))

theorem cbcEncryptBlocks_valid (rks : List Block) (hk : ∀ k ∈ rks, k.Valid) :
    ∀ (ps : List Block) (prev : Block), prev.Valid → (∀ p ∈ ps, p.Valid) →
    ∀ c ∈ cbcEncryptBlocks rks prev ps, c.Valid := by
  intro ps
  induction ps with
  | nil => intro prev _ _ c hc; simp [cbcEncryptBlocks] at hc
  | cons p rest ih =>
    intro prev hprev hps c hc
    have hp : p.Valid := hps p (List.mem_cons_self p rest)
    have henc : (aesEncryptBlock rks (xorBlock p prev)).Valid :=
      aesEncryptBlock_valid (xorBlock_valid hp hprev) hk
    simp only [cbcEncryptBlocks, List.mem_cons] at hc
    rcases hc with rfl | hc'
    · exact henc
    · exact ih _ henc (fun q hq => hps q (List.mem_cons_of_mem p hq)) c hc'

/-! ## `ImageCrypto.encryptImage` / `ImageCrypto.decryptImage`
(src/backend/src/utils/crypto.js, lines 39–72)

The source calls `crypto.createCipheriv('aes-256-cbc', key, iv)` and
feeds the whole buffer through `update`/`final`; that is AES-256-CBC
with PKCS7 padding, modelled from the spec (§4.1).  Byte buffers are
`List Nat`, the 16-byte IV is the first CBC chaining block. -/

def ivToBlock (iv : List Nat) : Block :=
  (toBlocks iv).headD zeroBlock

namespace ImageCrypto

/-- `encryptImage(imageBuffer, key, iv)`: AES-256-CBC encryption of the
padded buffer. -/
def encryptImage (imageBuffer key iv : List Nat) : List Nat :=
  fromBlocks (cbcEncryptBlocks (roundKeysOf key) (ivToBlock iv) (toBlocks (padPkcs7 imageBuffer)))

/-- `decryptImage(encryptedBuffer, key, iv)`: AES-256-CBC decryption; a
padding mismatch (`decipher.final` throwing) is `none`. -/
def decryptImage (encryptedBuffer key iv : List Nat) : Option (List Nat) :=
  unpadPkcs7 (fromBlocks (cbcDecryptBlocks (roundKeysOf key) (ivToBlock iv) (toBlocks encryptedBuffer)))

end ImageCrypto

theorem ivToBlock_valid (iv : List Nat) (h : ∀ x ∈ iv, x < 256) : (ivToBlock iv).Valid := by
  unfold ivToBlock
  cases hb : toBlocks iv with
  | nil => exact zeroBlock_valid
  | cons b rest =>
    have := toBlocks_valid iv h b (by rw [hb]; exact List.mem_cons_self b rest)
    simpa using this

/-- C1, main lemma: AES-256-CBC with PKCS7 padding round-trips for every
plaintext, 32-byte key and 16-byte IV. -/
theorem decryptImage_encryptImage (p key iv : List Nat)
    (hp : ∀ x ∈ p, x < 256) (hkey : ∀ x ∈ key, x < 256) (hiv : ∀ x ∈ iv, x < 256) :
    ImageCrypto.decryptImage (ImageCrypto.encryptImage p key iv) key iv = some p := by
  unfold ImageCrypto.decryptImage ImageCrypto.encryptImage
  have hrks := roundKeysOf_valid key hkey
  have hivb := ivToBlock_valid iv hiv
  have hpb : ∀ b ∈ toBlocks (padPkcs7 p), b.Valid :=
    toBlocks_valid _ (padPkcs7_lt p hp)
  rw [toBlocks_fromBlocks,
    cbcDecryptBlocks_cbcEncryptBlocks _ hrks _ _ hivb hpb,
    fromBlocks_toBlocks _ (padPkcs7_length p),
    unpadPkcs7_padPkcs7]

/-- C1: For every 32-byte key k, 16-byte IV iv, and plaintext p of any
length (bytes below 256), decrypting the result of encrypting p with
(k, iv) using the same (k, iv) returns p — AES-256-CBC with PKCS7-style
padding round-trips (`ImageCrypto.encryptImage` /
`ImageCrypto.decryptImage`, src/backend/src/utils/crypto.js). -/
theorem C1_encrypt_decrypt_roundtrip (p key iv : List Nat)
    (hp : ∀ x ∈ p, x < 256)
    (hkeyLen : key.length = 32) (hkey : ∀ x ∈ key, x < 256)
    (hivLen : iv.length = 16) (hiv : ∀ x ∈ iv, x < 256) :
    ImageCrypto.decryptImage (ImageCrypto.encryptImage p key iv) key iv = some p :=
  decryptImage_encryptImage p key iv hp hkey hiv

/-- Witness for C1 at a concrete plaintext, key and IV. -/
theorem C1_witness :
    (∀ x ∈ [1, 2, 3], x < 256) ∧
    (List.replicate 32 7).length = 32 ∧ (∀ x ∈ List.replicate 32 7, x < 256) ∧
    (List.replicate 16 9).length = 16 ∧ (∀ x ∈ List.replicate 16 9, x < 256) ∧
    ImageCrypto.decryptImage
      (ImageCrypto.encryptImage [1, 2, 3] (List.replicate 32 7) (List.replicate 16 9))
      (List.replicate 32 7) (List.replicate 16 9) = some [1, 2, 3] :=
  ⟨by decide, by decide, by decide, by decide, by decide,
    C1_encrypt_decrypt_roundtrip [1, 2, 3] (List.replicate 32 7) (List.replicate 16 9)
      (by decide) (by decide) (by decide) (by decide) (by decide)⟩

/-! ## SHA-256 (FIPS-180-4)

Modelled from the spec: `crypto.createHash('sha256')`, used by
`encryptKeyAndIV`/`decryptKeyAndIV` to derive the 256-bit wrapping key
from the master secret, and by `generateFileHash`; the hash itself is
library code not under src/. Words are `Nat` reduced mod 2^32. -/

def w32 : Nat := 4294967296

def rotr32 (n x : Nat) : Nat := ((x >>> n) ||| (x <<< (32 - n))) % w32

def shaCh (x y z : Nat) : Nat := (x &&& y) ^^^ ((x ^^^ 4294967295) &&& z)

def shaMaj (x y z : Nat) : Nat := (x &&& y) ^^^ (x &&& z) ^^^ (y &&& z)

def shaBigSigma0 (x : Nat) : Nat := rotr32 2 x ^^^ rotr32 13 x ^^^ rotr32 22 x

def shaBigSigma1 (x : Nat) : Nat := rotr32 6 x ^^^ rotr32 11 x ^^^ rotr32 25 x

def shaSmallSigma0 (x : Nat) : Nat := rotr32 7 x ^^^ rotr32 18 x ^^^ (x >>> 3)

def shaSmallSigma1 (x : Nat) : Nat := rotr32 17 x ^^^ rotr32 19 x ^^^ (x >>> 10)

def shaK : List Nat := [
  1116352408, 1899447441, 3049323471, 3921009573, 961987163, 1508970993,
  2453635748, 2870763221, 3624381080, 310598401, 607225278, 1426881987,
  1925078388, 2162078206, 2614888103, 3248222580, 3835390401, 4022224774,
  264347078, 604807628, 770255983, 1249150122, 1555081692, 1996064986,
  2554220882, 2821834349, 2952996808, 3210313671, 3336571891, 3584528711,
  113926993, 338241895, 666307205, 773529912, 1294757372, 1396182291,
  1695183700, 1986661051, 2177026350, 2456956037, 2730485921, 2820302411,
  3259730800, 3345764771, 3516065817, 3600352804, 4094571909, 275423344,
  430227734, 506948616, 659060556, 883997877, 958139571, 1322822218,
  1537002063, 1747873779, 1955562222, 2024104815, 2227730452, 2361852424,
  2428436474, 2756734187, 3204031479, 3329325298]

def shaH0 : List Nat := [
  1779033703, 3144134277, 1013904242, 2773480762,
  1359893119, 2600822924, 528734635, 1541459225]

/-- Message-schedule extension: `acc` holds the schedule words so far in
reverse order; 48 extension steps follow the 16 words of the chunk. -/
def shaScheduleAux : Nat → List Nat → List Nat
  | 0, acc => acc
  | n + 1, acc =>
      shaScheduleAux n
        ((shaSmallSigma1 (acc.getD 1 0) + acc.getD 6 0 +
          shaSmallSigma0 (acc.getD 14 0) + acc.getD 15 0) % w32 :: acc)

def word32At (l : List Nat) (j : Nat) : Nat :=
  l.getD (4 * j) 0 * 16777216 + l.getD (4 * j + 1) 0 * 65536 +
  l.getD (4 * j + 2) 0 * 256 + l.getD (4 * j + 3) 0

/-- The 64 schedule words of one 64-byte chunk. -/
def shaSchedule (chunk : List Nat) : List Nat :=
  (shaScheduleAux 48
    [word32At chunk 15, word32At chunk 14, word32At chunk 13, word32At chunk 12,
     word32At chunk 11, word32At chunk 10, word32At chunk 9, word32At chunk 8,
     word32At chunk 7, word32At chunk 6, word32At chunk 5, word32At chunk 4,
     word32At chunk 3, word32At chunk 2, word32At chunk 1, word32At chunk 0]).reverse

structure ShaState where
  (a b c d e f g h : Nat)

def shaStep (s : ShaState) (kw : Nat × Nat) : ShaState :=
  let t1 := (s.h + shaBigSigma1 s.e + shaCh s.e s.f s.g + kw.1 + kw.2) % w32
  let t2 := (shaBigSigma0 s.a + shaMaj s.a s.b s.c) % w32
  ⟨(t1 + t2) % w32, s.a, s.b, s.c, (s.d + t1) % w32, s.e, s.f, s.g⟩

def shaCompress (hv : List Nat) (chunk : List Nat) : List Nat :=
  let s0 : ShaState := ⟨hv.getD 0 0, hv.getD 1 0, hv.getD 2 0, hv.getD 3 0,
    hv.getD 4 0, hv.getD 5 0, hv.getD 6 0, hv.getD 7 0⟩
  let s := (List.zip shaK (shaSchedule chunk)).foldl shaStep s0
  [(hv.getD 0 0 + s.a) % w32, (hv.getD 1 0 + s.b) % w32, (hv.getD 2 0 + s.c) % w32,
   (hv.getD 3 0 + s.d) % w32, (hv.getD 4 0 + s.e) % w32, (hv.getD 5 0 + s.f) % w32,
   (hv.getD 6 0 + s.g) % w32, (hv.getD 7 0 + s.h) % w32]

/-- SHA-256 message padding: 0x80, zeros, and the 64-bit big-endian bit
length, to a multiple of 64 bytes. -/
def shaPad (m : List Nat) : List Nat :=
  m ++ [128] ++ List.replicate ((64 - (m.length + 9) % 64) % 64) 0 ++
  [8 * m.length / 72057594037927936 % 256, 8 * m.length / 281474976710656 % 256,
   8 * m.length / 1099511627776 % 256, 8 * m.length / 4294967296 % 256,
   8 * m.length / 16777216 % 256, 8 * m.length / 65536 % 256,
   8 * m.length / 256 % 256, 8 * m.length % 256]

def shaChunks : Nat → List Nat → List (List Nat)
  | 0, _ => []
  | n + 1, l => l.take 64 :: shaChunks n (l.drop 64)

def digestBytes : List Nat → List Nat
  | [] => []
  | w :: rest => w / 16777216 % 256 :: w / 65536 % 256 :: w / 256 % 256 :: w % 256 :: digestBytes rest

/-- Modelled from the spec: SHA-256 of a byte list (FIPS-180-4), the
`crypto.createHash('sha256').update(...).digest()` of the source. -/
def sha256 (m : List Nat) : List Nat :=
  digestBytes ((shaChunks ((shaPad m).length / 64) (shaPad m)).foldl shaCompress shaH0)

theorem digestBytes_lt (ws : List Nat) : ∀ x ∈ digestBytes ws, x < 256 := by
  induction ws with
  | nil => intro x hx; simp [digestBytes] at hx
  | cons w rest ih =>
    intro x hx
    simp only [digestBytes, List.mem_cons] at hx
    rcases hx with rfl | rfl | rfl | rfl | h'
    · exact Nat.mod_lt _ (by omega)
    · exact Nat.mod_lt _ (by omega)
    · exact Nat.mod_lt _ (by omega)
    · exact Nat.mod_lt _ (by omega)
    · exact ih x h'

theorem sha256_lt (m : List Nat) : ∀ x ∈ sha256 m, x < 256 :=
  digestBytes_lt _

/-! ## Base64 (RFC 4648)

Modelled from the spec: `Buffer.toString('base64')` /
`Buffer.from(s, 'base64')`, used for the wrapped key material
(`base64(wrapIV ‖ ciphertext)`). -/

def b64Alphabet : List Char :=
  ['A','B','C','D','E','F','G','H','I','J','K','L','M','N','O','P','Q','R','S','T',
   'U','V','W','X','Y','Z','a','b','c','d','e','f','g','h','i','j','k','l','m','n',
   'o','p','q','r','s','t','u','v','w','x','y','z','0','1','2','3','4','5','6','7',
   '8','9','+','/']

def b64Char (i : Nat) : Char := b64Alphabet.getD i '?'

def b64Index (c : Char) : Option Nat := b64Alphabet.findIdx? (· = c)

def base64Encode : List Nat → List Char
  | [] => []
  | [a] => [b64Char (a / 4), b64Char (a % 4 * 16), '=', '=']
  | [a, b] => [b64Char (a / 4), b64Char (a % 4 * 16 + b / 16), b64Char (b % 16 * 4), '=']
  | a :: b :: c :: rest =>
      b64Char (a / 4) :: b64Char (a % 4 * 16 + b / 16) ::
      b64Char (b % 16 * 4 + c / 64) :: b64Char (c % 64) :: base64Encode rest

def base64Decode : List Char → Option (List Nat)
  | [] => some []
  | c0 :: c1 :: c2 :: c3 :: rest =>
      match b64Index c0, b64Index c1 with
      | some s0, some s1 =>
          if c2 = '=' then
            if c3 = '=' ∧ rest = [] then some [s0 * 4 + s1 / 16] else none
          else
            match b64Index c2 with
            | some s2 =>
                if c3 = '=' then
                  if rest = [] then some [s0 * 4 + s1 / 16, s1 % 16 * 16 + s2 / 4] else none
                else
                  match b64Index c3, base64Decode rest with
                  | some s3, some bs =>
                      some ((s0 * 4 + s1 / 16) :: (s1 % 16 * 16 + s2 / 4) ::
                        (s2 % 4 * 64 + s3) :: bs)
                  | _, _ => none
            | none => none
      | _, _ => none
  | _ => none

theorem b64Index_b64Char : ∀ i < 64, b64Index (b64Char i) = some i := by decide

theorem b64Char_ne_eq : ∀ i < 64, b64Char i ≠ '=' := by decide

theorem base64Decode_base64Encode (l : List Nat) (h : ∀ x ∈ l, x < 256) :
    base64Decode (base64Encode l) = some l := by
  have main : ∀ n (l : List Nat), l.length = n → (∀ x ∈ l, x < 256) →
      base64Decode (base64Encode l) = some l := by
    intro n
    induction n using Nat.strong_induction_on with
    | _ n ih =>
      intro l hn h
      match l with
      | [] => rfl
      | [a] =>
        have ha : a < 256 := h a (by simp)
        have h0 : a / 4 < 64 := by omega
        have h1 : a % 4 * 16 < 64 := by omega
        simp [base64Encode, base64Decode, b64Index_b64Char _ h0, b64Index_b64Char _ h1]
        omega
      | [a, b] =>
        have ha : a < 256 := h a (by simp)
        have hb : b < 256 := h b (by simp)
        have h0 : a / 4 < 64 := by omega
        have h1 : a % 4 * 16 + b / 16 < 64 := by omega
        have h2 : b % 16 * 4 < 64 := by omega
        simp [base64Encode, base64Decode, b64Index_b64Char _ h0, b64Index_b64Char _ h1,
          b64Index_b64Char _ h2, if_neg (b64Char_ne_eq _ h2)]
        omega
      | a :: b :: c :: rest =>
        have ha : a < 256 := h a (by simp)
        have hb : b < 256 := h b (by simp)
        have hc : c < 256 := h c (by simp)
        have h0 : a / 4 < 64 := by omega
        have h1 : a % 4 * 16 + b / 16 < 64 := by omega
        have h2 : b % 16 * 4 + c / 64 < 64 := by omega
        have h3 : c % 64 < 64 := by omega
        have hrec := ih rest.length (by subst hn; simp [List.length]; omega) rest rfl
          (fun x hx => h x (by simp [hx]))
        have e0 : a / 4 * 4 + (a % 4 * 16 + b / 16) / 16 = a := by omega
        have e1 : (a % 4 * 16 + b / 16) % 16 * 16 + (b % 16 * 4 + c / 64) / 4 = b := by omega
        have e2 : (b % 16 * 4 + c / 64) % 4 * 64 + c % 64 = c := by omega
        match rest, hrec with
        | [], hrec =>
          simp [base64Encode, base64Decode, b64Index_b64Char _ h0, b64Index_b64Char _ h1,
            b64Index_b64Char _ h2, b64Index_b64Char _ h3,
            if_neg (b64Char_ne_eq _ h2), if_neg (b64Char_ne_eq _ h3), e0, e1, e2]
        | r :: rs, hrec =>
          simp only [base64Encode] at hrec ⊢
          simp [base64Decode, b64Index_b64Char _ h0, b64Index_b64Char _ h1,
            b64Index_b64Char _ h2, b64Index_b64Char _ h3,
            if_neg (b64Char_ne_eq _ h2), if_neg (b64Char_ne_eq _ h3), hrec, e0, e1, e2]
  exact main l.length l rfl h

/-! ## `ImageCrypto.encryptKeyAndIV` / `ImageCrypto.decryptKeyAndIV`
(src/backend/src/utils/crypto.js, lines 81–156)

The wrapping key is SHA-256 of the master secret; the per-object key and
IV are each AES-256-CBC encrypted under it with an independently drawn
random 16-byte wrap-IV, and each wrapped value is
`base64(wrapIV ‖ ciphertext)`.  The two random wrap-IVs are explicit
arguments (the effect of the two `crypto.randomBytes(16)` draws). -/

namespace ImageCrypto

def encryptKeyAndIV (key iv masterKey : List Nat) (keyIV ivIV : List Nat) :
    List Char × List Char :=
  (base64Encode (keyIV ++ encryptImage key (sha256 masterKey) keyIV),
   base64Encode (ivIV ++ encryptImage iv (sha256 masterKey) ivIV))

def decryptKeyAndIV (encryptedKey encryptedIV : List Char) (masterKey : List Nat) :
    Option (List Nat × List Nat) :=
  (base64Decode encryptedKey).bind fun keyBuffer =>
  (base64Decode encryptedIV).bind fun ivBuffer =>
  (decryptImage (keyBuffer.drop 16) (sha256 masterKey) (keyBuffer.take 16)).bind fun k =>
  (decryptImage (ivBuffer.drop 16) (sha256 masterKey) (ivBuffer.take 16)).bind fun i =>
  some (k, i)

end ImageCrypto

theorem fromBlocks_lt (bs : List Block) (h : ∀ b ∈ bs, b.Valid) :
    ∀ x ∈ fromBlocks bs, x < 256 := by
  induction bs with
  | nil => intro x hx; simp [fromBlocks] at hx
  | cons b rest ih =>
    intro x hx
    simp only [fromBlocks, List.mem_append] at hx
    rcases hx with hx | hx
    · obtain ⟨v0, v1, v2, v3, v4, v5, v6, v7, v8, v9, v10, v11, v12, v13, v14, v15⟩ :=
        h b (List.mem_cons_self b rest)
      simp only [blockToList, List.mem_cons] at hx
      rcases hx with rfl|rfl|rfl|rfl|rfl|rfl|rfl|rfl|rfl|rfl|rfl|rfl|rfl|rfl|rfl|rfl|hfalse
      all_goals first
        | assumption
        | simp at hfalse
    · exact ih (fun b' hb' => h b' (List.mem_cons_of_mem b hb')) x hx

theorem encryptImage_lt (p key iv : List Nat) (hp : ∀ x ∈ p, x < 256)
    (hkey : ∀ x ∈ key, x < 256) (hiv : ∀ x ∈ iv, x < 256) :
    ∀ x ∈ ImageCrypto.encryptImage p key iv, x < 256 :=
  fromBlocks_lt _ (cbcEncryptBlocks_valid _ (roundKeysOf_valid key hkey) _ _
    (ivToBlock_valid iv hiv) (toBlocks_valid _ (padPkcs7_lt p hp)))

/-- C2: envelope-unwrapping the output of envelope-wrapping (key, iv)
under a master secret of length ≥ 32 yields back exactly (key, iv); each
wrapped value is base64 of a random 16-byte wrap-IV prepended to the
ciphertext (see `ImageCrypto.encryptKeyAndIV`), and unwrap splits the
first 16 decoded bytes as the wrap-IV (`ImageCrypto.decryptKeyAndIV`,
src/backend/src/utils/crypto.js lines 81–156). -/
theorem C2_envelope_roundtrip (key iv masterKey keyIV ivIV : List Nat)
    (hkeyLen : key.length = 32) (hkey : ∀ x ∈ key, x < 256)
    (hivLen : iv.length = 16) (hiv : ∀ x ∈ iv, x < 256)
    (hmkLen : 32 ≤ masterKey.length) (hmk : ∀ x ∈ masterKey, x < 256)
    (hkIVLen : keyIV.length = 16) (hkIV : ∀ x ∈ keyIV, x < 256)
    (hiIVLen : ivIV.length = 16) (hiIV : ∀ x ∈ ivIV, x < 256) :
    ImageCrypto.decryptKeyAndIV
      (ImageCrypto.encryptKeyAndIV key iv masterKey keyIV ivIV).1
      (ImageCrypto.encryptKeyAndIV key iv masterKey keyIV ivIV).2
      masterKey = some (key, iv) := by
  unfold ImageCrypto.decryptKeyAndIV ImageCrypto.encryptKeyAndIV
  have hsha := sha256_lt masterKey
  have hwrapK : ∀ x ∈ keyIV ++ ImageCrypto.encryptImage key (sha256 masterKey) keyIV,
      x < 256 := by
    intro x hx
    rcases List.mem_append.mp hx with h1 | h2
    · exact hkIV x h1
    · exact encryptImage_lt _ _ _ hkey hsha hkIV x h2
  have hwrapI : ∀ x ∈ ivIV ++ ImageCrypto.encryptImage iv (sha256 masterKey) ivIV,
      x < 256 := by
    intro x hx
    rcases List.mem_append.mp hx with h1 | h2
    · exact hiIV x h1
    · exact encryptImage_lt _ _ _ hiv hsha hiIV x h2
  rw [base64Decode_base64Encode _ hwrapK, base64Decode_base64Encode _ hwrapI]
  simp only [Option.some_bind]
  have htakeK : (keyIV ++ ImageCrypto.encryptImage key (sha256 masterKey) keyIV).take 16
      = keyIV := by
    rw [← hkIVLen, List.take_left]
  have hdropK : (keyIV ++ ImageCrypto.encryptImage key (sha256 masterKey) keyIV).drop 16
      = ImageCrypto.encryptImage key (sha256 masterKey) keyIV := by
    rw [← hkIVLen, List.drop_left]
  have htakeI : (ivIV ++ ImageCrypto.encryptImage iv (sha256 masterKey) ivIV).take 16
      = ivIV := by
    rw [← hiIVLen, List.take_left]
  have hdropI : (ivIV ++ ImageCrypto.encryptImage iv (sha256 masterKey) ivIV).drop 16
      = ImageCrypto.encryptImage iv (sha256 masterKey) ivIV := by
    rw [← hiIVLen, List.drop_left]
  rw [htakeK, hdropK, htakeI, hdropI,
    decryptImage_encryptImage key (sha256 masterKey) keyIV hkey hsha hkIV,
    decryptImage_encryptImage iv (sha256 masterKey) ivIV hiv hsha hiIV]
  simp only [Option.some_bind]

/-- Witness for C2 at a concrete key, IV, master secret and wrap-IVs. -/
theorem C2_witness :
    (List.replicate 32 1).length = 32 ∧ (List.replicate 16 2).length = 16 ∧
    32 ≤ (List.replicate 40 3).length ∧
    (List.replicate 16 4).length = 16 ∧ (List.replicate 16 5).length = 16 ∧
    ImageCrypto.decryptKeyAndIV
      (ImageCrypto.encryptKeyAndIV (List.replicate 32 1) (List.replicate 16 2)
        (List.replicate 40 3) (List.replicate 16 4) (List.replicate 16 5)).1
      (ImageCrypto.encryptKeyAndIV (List.replicate 32 1) (List.replicate 16 2)
        (List.replicate 40 3) (List.replicate 16 4) (List.replicate 16 5)).2
      (List.replicate 40 3) = some (List.replicate 32 1, List.replicate 16 2) :=
  ⟨by decide, by decide, by decide, by decide, by decide,
    C2_envelope_roundtrip (List.replicate 32 1) (List.replicate 16 2)
      (List.replicate 40 3) (List.replicate 16 4) (List.replicate 16 5)
      (by decide) (by decide) (by decide) (by decide) (by decide)
      (by decide) (by decide) (by decide) (by decide) (by decide)⟩

/-! ## Tokens (src/backend/src/utils/jwt.js, class JWTUtils)

Modelled from the spec for the `jsonwebtoken` library part: a signed
token carries its claims, issuer, audience and expiry together with the
secret it was signed with; `jwt.verify` accepts it exactly when the
secret matches, it is not expired, and issuer/audience match.  The
payload shape and every check above the library (`verifyImageAccess`,
token generation) is translated from jwt.js.  Times are epoch
milliseconds (`Date.now()`). -/

structure JwtPayload where
  (userId imageId : String)
  (sessionId : Option String)
  (tokType : String)
  (timestamp : Nat)
  (nonce : Nat)
  (oneTime : Bool)
deriving Repr, DecidableEq

structure Jwt where
  (payload : JwtPayload)
  (issuer audience : String)
  (exp : Nat)
  (signedWith : String)
deriving Repr, DecidableEq

namespace JWTUtils

def issuerName : String := "image-aes-system"

def audienceName : String := "image-client"

/-- `verifyToken`: signature, then expiry, then issuer/audience, mapped
to the source's error messages. -/
def verifyToken (secret : String) (now : Nat) (t : Jwt) : Except String JwtPayload :=
  if t.signedWith ≠ secret then Except.error "Token无效"
  else if t.exp ≤ now then Except.error "Token已过期"
  else if t.issuer ≠ issuerName ∨ t.audience ≠ audienceName then Except.error "Token无效"
  else Except.ok t.payload

end JWTUtils

inductive AccessResult where
  | granted (userId imageId : String) (sessionId : Option String) (tokType : String)
      (timestamp : Nat)
  | denied (error : String)
deriving Repr, DecidableEq

def AccessResult.valid : AccessResult → Bool
  | granted _ _ _ _ _ => true
  | denied _ => false

def AccessResult.sessionId : AccessResult → Option String
  | granted _ _ s _ _ => s
  | denied _ => none

namespace JWTUtils

/-- `verifyImageAccess(token, imageId, userId = null)`
(src/backend/src/utils/jwt.js lines 490–523): verify the token, then
require type ∈ {image_access, key_access}, the imageId to match, and —
when a userId is supplied — the userId to match. -/
def verifyImageAccess (secret : String) (now : Nat) (token : Jwt) (imageId : String)
    (userId : Option String) : AccessResult :=
  match verifyToken secret now token with
  | Except.error e => AccessResult.denied e
  | Except.ok d =>
      if d.tokType ≠ "image_access" ∧ d.tokType ≠ "key_access" then
        AccessResult.denied "Token类型不正确"
      else if d.imageId ≠ imageId then
        AccessResult.denied "图片ID不匹配"
      else
        match userId with
        | some u =>
            if d.userId ≠ u then AccessResult.denied "用户ID不匹配"
            else AccessResult.granted d.userId d.imageId d.sessionId d.tokType d.timestamp
        | none => AccessResult.granted d.userId d.imageId d.sessionId d.tokType d.timestamp

/-- `generateKeyToken(userId, imageId, sessionId)`: a `key_access` token
with TTL `keyExpiresIn` seconds. -/
def generateKeyToken (secret : String) (now : Nat) (nonce : Nat) (userId imageId : String)
    (sessionId : String) (keyExpiresIn : Nat) : Jwt :=
  Jwt.mk (JwtPayload.mk userId imageId (some sessionId) "key_access" now nonce false)
    issuerName audienceName (now + keyExpiresIn * 1000) secret

structure OneTimeTokenInfo where
  (token : Jwt)
  (sessionId : String)
  (expiresAt : Nat)
  (expiresInSeconds : Nat)
deriving Repr, DecidableEq

/-- `generateOneTimeToken(userId, imageId, expiresInSeconds)`
(src/backend/src/controllers/imageController.js, JWTUtils part, lines
532–553): a `one_time_access` token whose TTL is `expiresInSeconds`,
exactly as passed. -/
def generateOneTimeToken (secret : String) (now : Nat) (sessionId : String) (nonce : Nat)
    (userId imageId : String) (expiresInSeconds : Nat) : OneTimeTokenInfo :=
  OneTimeTokenInfo.mk
    (Jwt.mk (JwtPayload.mk userId imageId (some sessionId) "one_time_access" now nonce true)
      issuerName audienceName (now + expiresInSeconds * 1000) secret)
    sessionId (now + expiresInSeconds * 1000) expiresInSeconds

end JWTUtils

/-! ## The ephemeral key cache and `ImageService`
(src/unnamed/part_000, class ImageService) -/

structure CacheEntry where
  (key iv : List Char)
  (expiresAt : Nat)
  (userId imageId : String)
deriving Repr, DecidableEq

def KeyCache : Type := List (String × CacheEntry)

def cacheKeyOf (imageId sessionId : String) : String := imageId ++ ":" ++ sessionId

def KeyCache.get (c : KeyCache) (k : String) : Option CacheEntry :=
  (List.find? (fun p => p.1 = k) c).map (fun p => p.2)

def KeyCache.del (c : KeyCache) (k : String) : KeyCache :=
  List.filter (fun p => ¬ p.1 = k) c

def KeyCache.set (c : KeyCache) (k : String) (v : CacheEntry) : KeyCache :=
  (k, v) :: KeyCache.del c k

inductive KeyAccessResult where
  | valid (key iv : List Char) (userId : String)
  | invalid (error : String)
deriving Repr, DecidableEq

def KeyAccessResult.isValid : KeyAccessResult → Bool
  | valid _ _ _ => true
  | invalid _ => false

namespace ImageService

/-- `verifyKeyAccess(keyToken, imageId, sessionId)` (src/unnamed/part_000
lines 435–470): verify the token without a userId, require the token's
embedded sessionId to equal the presented one, then consult the cache
under `imageId:sessionId`; a missing entry fails, an entry whose
`expiresAt` is before `now` is deleted and fails, otherwise the cached
key and IV are returned.  Returns the result and the cache afterwards. -/
def verifyKeyAccess (secret : String) (now : Nat) (cache : KeyCache) (keyToken : Jwt)
    (imageId sessionId : String) : KeyAccessResult × KeyCache :=
  match JWTUtils.verifyImageAccess secret now keyToken imageId none with
  | AccessResult.denied e => (KeyAccessResult.invalid e, cache)
  | AccessResult.granted _ _ sid _ _ =>
      if sid ≠ some sessionId then (KeyAccessResult.invalid "会话ID不匹配", cache)
      else
        match KeyCache.get cache (cacheKeyOf imageId sessionId) with
        | none => (KeyAccessResult.invalid "密钥已过期或不存在", cache)
        | some e =>
            if e.expiresAt < now then
              (KeyAccessResult.invalid "密钥已过期", KeyCache.del cache (cacheKeyOf imageId sessionId))
            else
              (KeyAccessResult.valid e.key e.iv e.userId, cache)

end ImageService

theorem verifyImageAccess_granted_eq {secret : String} {now : Nat} {t : Jwt} {imageId : String}
    {userId : Option String} (h : (JWTUtils.verifyImageAccess secret now t imageId userId).valid
      = true) :
    JWTUtils.verifyImageAccess secret now t imageId userId =
      AccessResult.granted t.payload.userId t.payload.imageId t.payload.sessionId
        t.payload.tokType t.payload.timestamp := by
  unfold JWTUtils.verifyImageAccess JWTUtils.verifyToken at h ⊢
  by_cases h1 : t.signedWith ≠ secret
  · simp [h1, AccessResult.valid] at h
  · by_cases h2 : t.exp ≤ now
    · simp [h1, h2, AccessResult.valid] at h
    · by_cases h3 : t.issuer ≠ JWTUtils.issuerName ∨ t.audience ≠ JWTUtils.audienceName
      · simp [h1, h2, h3, AccessResult.valid] at h
      · by_cases h4 : t.payload.tokType ≠ "image_access" ∧ t.payload.tokType ≠ "key_access"
        · simp [h1, h2, h3, h4, AccessResult.valid] at h
        · by_cases h5 : t.payload.imageId ≠ imageId
          · simp [h1, h2, h3, h4, h5, AccessResult.valid] at h
          · cases userId with
            | none => simp [h1, h2, h3, h4, h5]
            | some u =>
              by_cases h6 : t.payload.userId ≠ u
              · simp [h1, h2, h3, h4, h5, h6, AccessResult.valid] at h
              · simp [h1, h2, h3, h4, h5, h6]

/-- C3: `verifyKeyAccess(keyToken, objectId, sessionId)` fails closed:
a presented sessionId different from the one embedded in the token, a
missing cache entry under (objectId, sessionId), or an entry whose
`expiresAt` is in the past each yield an invalid result with a reason;
an already-expired entry is deleted on this read; otherwise the cached
key and IV are returned (src/unnamed/part_000 lines 435–470). -/
theorem C3_verifyKeyAccess_fail_closed (secret : String) (now : Nat) (cache : KeyCache)
    (keyToken : Jwt) (imageId sessionId : String) :
    (keyToken.payload.sessionId ≠ some sessionId →
      ∃ r, (ImageService.verifyKeyAccess secret now cache keyToken imageId sessionId).1 =
        KeyAccessResult.invalid r) ∧
    (KeyCache.get cache (cacheKeyOf imageId sessionId) = none →
      ∃ r, (ImageService.verifyKeyAccess secret now cache keyToken imageId sessionId).1 =
        KeyAccessResult.invalid r) ∧
    (∀ e : CacheEntry,
      (JWTUtils.verifyImageAccess secret now keyToken imageId none).valid = true →
      keyToken.payload.sessionId = some sessionId →
      KeyCache.get cache (cacheKeyOf imageId sessionId) = some e →
      e.expiresAt < now →
      ImageService.verifyKeyAccess secret now cache keyToken imageId sessionId =
        (KeyAccessResult.invalid "密钥已过期",
         KeyCache.del cache (cacheKeyOf imageId sessionId))) ∧
    (∀ e : CacheEntry,
      (JWTUtils.verifyImageAccess secret now keyToken imageId none).valid = true →
      keyToken.payload.sessionId = some sessionId →
      KeyCache.get cache (cacheKeyOf imageId sessionId) = some e →
      now ≤ e.expiresAt →
      ImageService.verifyKeyAccess secret now cache keyToken imageId sessionId =
        (KeyAccessResult.valid e.key e.iv e.userId, cache)) := by
  refine ⟨?_, ?_, ?_, ?_⟩
  · intro hs
    unfold ImageService.verifyKeyAccess
    rcases hv : JWTUtils.verifyImageAccess secret now keyToken imageId none with
      ⟨u, i, s, ty, ts⟩ | e
    · have hg := verifyImageAccess_granted_eq (by rw [hv]; rfl)
      rw [hv] at hg
      have hsid : s = keyToken.payload.sessionId := by
        injection hg with _ _ h3 _ _
      rw [hsid]
      simp [if_pos hs]
    · exact ⟨e, rfl⟩
  · intro hnone
    unfold ImageService.verifyKeyAccess
    rcases hv : JWTUtils.verifyImageAccess secret now keyToken imageId none with
      ⟨u, i, s, ty, ts⟩ | e
    · by_cases hs : s ≠ some sessionId
      · simp [if_pos hs]
      · simp [if_neg hs, hnone]
    · exact ⟨e, rfl⟩
  · intro e hvalid hsid hget hexp
    unfold ImageService.verifyKeyAccess
    rw [verifyImageAccess_granted_eq hvalid]
    simp [hsid, hget, if_pos hexp]
  · intro e hvalid hsid hget hfresh
    unfold ImageService.verifyKeyAccess
    rw [verifyImageAccess_granted_eq hvalid]
    have : ¬ e.expiresAt < now := by omega
    simp [hsid, hget, if_neg this]

/-- Witness for C3: a key-access token presented with the wrong
sessionId, a lookup on an empty cache, and an expired then a fresh
cache entry, each behaving as the theorem states. -/
theorem C3_witness :
    ((JWTUtils.generateKeyToken "s" 1000 0 "u1" "img" "S1" 60).payload.sessionId ≠ some "S2" ∧
      ∃ r, (ImageService.verifyKeyAccess "s" 1000 []
        (JWTUtils.generateKeyToken "s" 1000 0 "u1" "img" "S1" 60) "img" "S2").1 =
        KeyAccessResult.invalid r) ∧
    (KeyCache.get [] (cacheKeyOf "img" "S1") = none ∧
      ∃ r, (ImageService.verifyKeyAccess "s" 1000 []
        (JWTUtils.generateKeyToken "s" 1000 0 "u1" "img" "S1" 60) "img" "S1").1 =
        KeyAccessResult.invalid r) ∧
    (ImageService.verifyKeyAccess "s" 5000000
        [(cacheKeyOf "img" "S1", CacheEntry.mk [] [] 4000000 "u1" "img")]
        (JWTUtils.generateKeyToken "s" 4999000 0 "u1" "img" "S1" 60) "img" "S1" =
      (KeyAccessResult.invalid "密钥已过期", [])) ∧
    (ImageService.verifyKeyAccess "s" 1000
        [(cacheKeyOf "img" "S1", CacheEntry.mk [] [] 4000000 "u1" "img")]
        (JWTUtils.generateKeyToken "s" 500 0 "u1" "img" "S1" 60) "img" "S1" =
      (KeyAccessResult.valid [] [] "u1",
       [(cacheKeyOf "img" "S1", CacheEntry.mk [] [] 4000000 "u1" "img")])) := by
  refine ⟨⟨by decide, ?_⟩, ⟨by decide, ?_⟩, ?_, ?_⟩
  · exact (C3_verifyKeyAccess_fail_closed "s" 1000 []
      (JWTUtils.generateKeyToken "s" 1000 0 "u1" "img" "S1" 60) "img" "S2").1 (by decide)
  · exact (C3_verifyKeyAccess_fail_closed "s" 1000 []
      (JWTUtils.generateKeyToken "s" 1000 0 "u1" "img" "S1" 60) "img" "S1").2.1 (by decide)
  · exact (C3_verifyKeyAccess_fail_closed "s" 5000000
      [(cacheKeyOf "img" "S1", CacheEntry.mk [] [] 4000000 "u1" "img")]
      (JWTUtils.generateKeyToken "s" 4999000 0 "u1" "img" "S1" 60) "img" "S1").2.2.1
      (CacheEntry.mk [] [] 4000000 "u1" "img") (by decide) (by decide) (by decide) (by decide)
  · exact (C3_verifyKeyAccess_fail_closed "s" 1000
      [(cacheKeyOf "img" "S1", CacheEntry.mk [] [] 4000000 "u1" "img")]
      (JWTUtils.generateKeyToken "s" 500 0 "u1" "img" "S1" 60) "img" "S1").2.2.2
      (CacheEntry.mk [] [] 4000000 "u1" "img") (by decide) (by decide) (by decide) (by decide)

/-! ## `ImageService.getDecryptionKey` (src/unnamed/part_000 lines 329–382) -/

structure ImageMetadata where
  (imageId userId : String)
  (encryptedKey encryptedIV : List Char)
deriving Repr, DecidableEq

structure KeyIssueResult where
  (keyToken : Jwt)
  (sessionId : String)
  (expiresIn : Nat)
  (key iv : List Char)
deriving Repr, DecidableEq

namespace ImageService

/-- `getDecryptionKey(imageId, token, userId)`: verify access with the
userId, load the metadata, require the requesting user to be the
recorded owner, unwrap the key material, then cache it under a fresh
sessionId and issue a key token.  `metadataStore` is the injected
metadata lookup, `sessionId`/`nonce` stand for the `crypto.randomUUID`
and nonce draws, `now` for `Date.now()`.  Returns the result (an error
message on any failure, as thrown by the source) and the cache
afterwards. -/
def getDecryptionKey (secret masterSecret : String) (masterKeyBytes : List Nat)
    (metadataStore : String → Option ImageMetadata) (cache : KeyCache) (now : Nat)
    (sessionId : String) (nonce : Nat) (keyExpiresIn : Nat)
    (imageId : String) (token : Jwt) (userId : String) :
    Except String KeyIssueResult × KeyCache :=
  match JWTUtils.verifyImageAccess secret now token imageId (some userId) with
  | AccessResult.denied e => (Except.error ("获取解密密钥失败: 访问验证失败: " ++ e), cache)
  | AccessResult.granted _ _ _ _ _ =>
      match metadataStore imageId with
      | none => (Except.error "获取解密密钥失败: 图片不存在", cache)
      | some md =>
          if md.userId ≠ userId then
            (Except.error "获取解密密钥失败: 无权访问此图片", cache)
          else
            match ImageCrypto.decryptKeyAndIV md.encryptedKey md.encryptedIV masterKeyBytes with
            | none => (Except.error "获取解密密钥失败: 密钥解密失败", cache)
            | some (k, iv) =>
                (Except.ok (KeyIssueResult.mk
                    (JWTUtils.generateKeyToken secret now nonce userId imageId sessionId
                      keyExpiresIn)
                    sessionId keyExpiresIn (base64Encode k) (base64Encode iv)),
                 KeyCache.set cache (cacheKeyOf imageId sessionId)
                   (CacheEntry.mk (base64Encode k) (base64Encode iv)
                     (now + keyExpiresIn * 1000) userId imageId))

end ImageService

/-- C4: when the requesting user is not the owner recorded in the
object's metadata, `getDecryptionKey` fails with an error and the key
cache is left unchanged — no cache entry is inserted by the failed call
(src/unnamed/part_000 lines 329–382). -/
theorem C4_issueKey_nonowner_no_cache_entry (secret masterSecret : String)
    (masterKeyBytes : List Nat) (metadataStore : String → Option ImageMetadata)
    (cache : KeyCache) (now : Nat) (sessionId : String) (nonce keyExpiresIn : Nat)
    (imageId : String) (token : Jwt) (userId : String) (md : ImageMetadata)
    (hmd : metadataStore imageId = some md) (howner : md.userId ≠ userId) :
    (∃ e, (ImageService.getDecryptionKey secret masterSecret masterKeyBytes metadataStore
      cache now sessionId nonce keyExpiresIn imageId token userId).1 = Except.error e) ∧
    (ImageService.getDecryptionKey secret masterSecret masterKeyBytes metadataStore
      cache now sessionId nonce keyExpiresIn imageId token userId).2 = cache := by
  unfold ImageService.getDecryptionKey
  rcases hv : JWTUtils.verifyImageAccess secret now token imageId (some userId) with
    ⟨u, i, s, ty, ts⟩ | e
  · rw [hmd]
    simp [if_pos howner]
  · simp

/-- Witness for C4: user "u2" requesting against an object owned by
"u1" with a well-formed token. -/
theorem C4_witness :
    ((fun i => if i = "img" then some (ImageMetadata.mk "img" "u1" [] []) else none) "img"
      = some (ImageMetadata.mk "img" "u1" [] [])) ∧
    ((ImageMetadata.mk "img" "u1" [] []).userId ≠ "u2") ∧
    (∃ e, (ImageService.getDecryptionKey "s" "m" [] 
      (fun i => if i = "img" then some (ImageMetadata.mk "img" "u1" [] []) else none)
      [] 1000 "S1" 0 60 "img"
      (JWTUtils.generateKeyToken "s" 500 0 "u2" "img" "S0" 60) "u2").1 = Except.error e) ∧
    (ImageService.getDecryptionKey "s" "m" []
      (fun i => if i = "img" then some (ImageMetadata.mk "img" "u1" [] []) else none)
      [] 1000 "S1" 0 60 "img"
      (JWTUtils.generateKeyToken "s" 500 0 "u2" "img" "S0" 60) "u2").2 = [] := by
  have h := C4_issueKey_nonowner_no_cache_entry "s" "m" []
    (fun i => if i = "img" then some (ImageMetadata.mk "img" "u1" [] []) else none)
    [] 1000 "S1" 0 60 "img"
    (JWTUtils.generateKeyToken "s" 500 0 "u2" "img" "S0" 60) "u2"
    (ImageMetadata.mk "img" "u1" [] []) (by decide) (by decide)
  exact ⟨by decide, by decide, h.1, h.2⟩

/-- C10: every token whose embedded type claim is `one_time_access` —
as produced by `generateOneTimeToken` — fails `verifyImageAccess`,
because only the types `image_access` and `key_access` pass the scope
check (src/backend/src/utils/jwt.js lines 490–523, 532–553); a
OneTimeToken therefore never authorizes key issuance, download, or key
redemption through that path. -/
theorem C10_one_time_token_rejected (secret : String) (now : Nat) (t : Jwt)
    (imageId : String) (userId : Option String)
    (ht : t.payload.tokType = "one_time_access") :
    (JWTUtils.verifyImageAccess secret now t imageId userId).valid = false ∧
    (∀ (sk : String) (n2 : Nat) (sid : String) (nc : Nat) (u i : String) (ttl : Nat),
      (JWTUtils.generateOneTimeToken sk n2 sid nc u i ttl).token.payload.tokType =
        "one_time_access") := by
  constructor
  · unfold JWTUtils.verifyImageAccess JWTUtils.verifyToken
    by_cases h1 : t.signedWith ≠ secret
    · simp [h1, AccessResult.valid]
    · by_cases h2 : t.exp ≤ now
      · simp [h1, h2, AccessResult.valid]
      · by_cases h3 : t.issuer ≠ JWTUtils.issuerName ∨ t.audience ≠ JWTUtils.audienceName
        · simp [h1, h2, h3, AccessResult.valid]
        · have h4 : t.payload.tokType ≠ "image_access" ∧ t.payload.tokType ≠ "key_access" := by
            rw [ht]; exact ⟨by decide, by decide⟩
          simp [h1, h2, h3, h4, AccessResult.valid]
  · intro sk n2 sid nc u i ttl
    rfl

/-- Witness for C10: a freshly generated one-time token is rejected by
`verifyImageAccess` even with the right secret, image and user. -/
theorem C10_witness :
    ((JWTUtils.generateOneTimeToken "s" 1000 "S1" 0 "u1" "img" 300).token.payload.tokType
      = "one_time_access") ∧
    (JWTUtils.verifyImageAccess "s" 1000
      (JWTUtils.generateOneTimeToken "s" 1000 "S1" 0 "u1" "img" 300).token
      "img" (some "u1")).valid = false :=
  ⟨by decide,
    (C10_one_time_token_rejected "s" 1000
      (JWTUtils.generateOneTimeToken "s" 1000 "S1" 0 "u1" "img" 300).token
      "img" (some "u1") (by decide)).1⟩

/-! ## The one-time-token route
(src/backend/src/routes/imageRoutes.js lines 174–186,
src/backend/src/controllers/imageController.js lines 328–369)

The route declares `body('expiresIn').optional().isInt({min:60,max:3600})`.
An express-validator chain only records errors on the request; rejection
happens when a handler consults `validationResult`.  The controller
`generateOneTimeToken` never does, so the recorded errors are
discarded. -/

/-- The validation errors the route's validator records for the
`expiresIn` body field. -/
def oneTimeTokenValidatorErrors (expiresIn : Option Nat) : List String :=
  match expiresIn with
  | none => []
  | some v => if 60 ≤ v ∧ v ≤ 3600 then [] else ["过期时间必须在60-3600秒之间"]

namespace ImageController

/-- The `/one-time-token/:imageId` handler: missing-parameter check,
ownership check, then token generation with the TTL exactly as sent
(`expiresIn = 300` when the body omits it); the validator's recorded
errors are never consulted. -/
def generateOneTimeTokenRoute (secret : String) (now : Nat) (sessionId : String) (nonce : Nat)
    (metadataStore : String → Option ImageMetadata) (imageId userId : String)
    (expiresIn : Option Nat) : Except (Nat × String) JWTUtils.OneTimeTokenInfo :=
  if imageId = "" ∨ userId = "" then Except.error (400, "缺少必要参数")
  else
    match metadataStore imageId with
    | none => Except.error (403, "无权访问此图片")
    | some md =>
        if md.userId ≠ userId then Except.error (403, "无权访问此图片")
        else Except.ok (JWTUtils.generateOneTimeToken secret now sessionId nonce userId imageId
          (expiresIn.getD 300))

end ImageController

/-- C9 (failing-input evaluation): an owner's request with
`expiresIn = 7200` — outside the declared 60–3600 range, and flagged by
the route's validator — is still honored as given: the issued
OneTimeToken has TTL 7200 seconds and expiry `now + 7200·1000` ms,
because the controller never checks `validationResult`.  This
contradicts the claim that a requested TTL outside 60–3600 is not
honored as given. -/
theorem C9_out_of_range_ttl_honored :
    oneTimeTokenValidatorErrors (some 7200) = ["过期时间必须在60-3600秒之间"] ∧
    ¬ (60 ≤ 7200 ∧ 7200 ≤ 3600) ∧
    ImageController.generateOneTimeTokenRoute "s" 1000 "S1" 0
      (fun i => if i = "img" then some (ImageMetadata.mk "img" "u1" [] []) else none)
      "img" "u1" (some 7200) =
      Except.ok (JWTUtils.generateOneTimeToken "s" 1000 "S1" 0 "u1" "img" 7200) ∧
    (JWTUtils.generateOneTimeToken "s" 1000 "S1" 0 "u1" "img" 7200).expiresInSeconds = 7200 ∧
    (JWTUtils.generateOneTimeToken "s" 1000 "S1" 0 "u1" "img" 7200).token.exp =
      1000 + 7200 * 1000 := by
  refine ⟨by decide, by decide, ?_, by decide, by decide⟩
  unfold ImageController.generateOneTimeTokenRoute
  simp

/-! ## `SecurityMiddleware` (src/backend/src/middleware/security.js)

Per-IP failure tracking and the temporary-ban state machine:
`incrementFailedAttempts` counts failures, bans an IP at 20 failures
within 15 minutes (900000 ms) and schedules an automatic unban
1 hour (3600000 ms) later which removes both the ban and the attempt
record; `checkIPBlock` rejects every request from a banned IP before
any rate limiter runs.  `setTimeout` callbacks are modelled as pending
unbans executed by `fireUnbansUpTo`. -/

structure IpAttempts where
  (count firstAttempt lastAttempt : Nat)
deriving Repr, DecidableEq

structure SecState where
  (ipAttempts : List (String × IpAttempts))
  (blockedIPs : List String)
  (pendingUnbans : List (String × Nat))
deriving Repr, DecidableEq

def attemptsGet (m : List (String × IpAttempts)) (ip : String) : Option IpAttempts :=
  (List.find? (fun p => p.1 = ip) m).map (fun p => p.2)

def attemptsSet (m : List (String × IpAttempts)) (ip : String) (a : IpAttempts) :
    List (String × IpAttempts) :=
  (ip, a) :: List.filter (fun p => ¬ p.1 = ip) m

def addBlocked (bl : List String) (ip : String) : List String :=
  if bl.contains ip then bl else ip :: bl

namespace SecurityMiddleware

def banWindowMs : Nat := 900000

def banDurationMs : Nat := 3600000

def maxAttempts : Nat := 20

/-- `incrementFailedAttempts(ip)` at time `now`: bump the record (a
fresh record starts at `firstAttempt = lastAttempt = now`), and ban the
IP — scheduling its unban an hour out — when the count reaches 20
within the 15-minute window. -/
def incrementFailedAttempts (now : Nat) (ip : String) (s : SecState) : SecState :=
  if maxAttempts ≤ ((attemptsGet s.ipAttempts ip).getD (IpAttempts.mk 0 now now)).count + 1 ∧
      now - ((attemptsGet s.ipAttempts ip).getD (IpAttempts.mk 0 now now)).firstAttempt ≤
        banWindowMs then
    SecState.mk
      (attemptsSet s.ipAttempts ip
        (IpAttempts.mk (((attemptsGet s.ipAttempts ip).getD (IpAttempts.mk 0 now now)).count + 1)
          ((attemptsGet s.ipAttempts ip).getD (IpAttempts.mk 0 now now)).firstAttempt now))
      (addBlocked s.blockedIPs ip)
      ((ip, now + banDurationMs) :: s.pendingUnbans)
  else
    SecState.mk
      (attemptsSet s.ipAttempts ip
        (IpAttempts.mk (((attemptsGet s.ipAttempts ip).getD (IpAttempts.mk 0 now now)).count + 1)
          ((attemptsGet s.ipAttempts ip).getD (IpAttempts.mk 0 now now)).firstAttempt now))
      s.blockedIPs s.pendingUnbans

/-- `checkIPBlock()`: is the request rejected outright? -/
def checkIPBlock (s : SecState) (ip : String) : Bool :=
  s.blockedIPs.contains ip

/-- Is an unban for `ip` scheduled at or before `t`? -/
def unbanDue (pending : List (String × Nat)) (t : Nat) (ip : String) : Bool :=
  pending.any (fun q => q.1 = ip ∧ q.2 ≤ t)

/-- Execute every scheduled unban that is due at or before `t`: each
removes its IP from the blocked set and drops its attempt record. -/
def fireUnbansUpTo (t : Nat) (s : SecState) : SecState :=
  SecState.mk
    (s.ipAttempts.filter (fun p => ! unbanDue s.pendingUnbans t p.1))
    (s.blockedIPs.filter (fun ip => ! unbanDue s.pendingUnbans t ip))
    (s.pendingUnbans.filter (fun q => ! decide (q.2 ≤ t)))

def recordFailures (ip : String) (ts : List Nat) (s : SecState) : SecState :=
  ts.foldl (fun s t => incrementFailedAttempts t ip s) s

end SecurityMiddleware

inductive RequestOutcome where
  | bannedReject
  | rateLimited
  | allowed
deriving Repr, DecidableEq

/-- The request pipeline of every route: `checkIPBlock` first, then a
rate limiter with its counters (`express-rate-limit` state, modelled as
per-key counts against a limit). -/
def handleRequest (s : SecState) (counters : List (String × Nat)) (limit : Nat)
    (ip : String) : RequestOutcome :=
  if SecurityMiddleware.checkIPBlock s ip then RequestOutcome.bannedReject
  else if limit ≤ ((List.find? (fun p => p.1 = ip) counters).map (fun p => p.2)).getD 0 then
    RequestOutcome.rateLimited
  else RequestOutcome.allowed

theorem attemptsGet_attemptsSet (m : List (String × IpAttempts)) (ip : String) (a : IpAttempts) :
    attemptsGet (attemptsSet m ip a) ip = some a := by
  simp [attemptsGet, attemptsSet, List.find?]

/-- Counting below the threshold only grows the per-IP record: the
blocked set and the pending unbans are untouched. -/
theorem recordFailures_growth (ip : String) (ts : List Nat) :
    ∀ (s : SecState) (a : IpAttempts), attemptsGet s.ipAttempts ip = some a →
    a.count + ts.length < SecurityMiddleware.maxAttempts →
    attemptsGet (SecurityMiddleware.recordFailures ip ts s).ipAttempts ip =
      some (IpAttempts.mk (a.count + ts.length) a.firstAttempt (ts.getLastD a.lastAttempt)) ∧
    (SecurityMiddleware.recordFailures ip ts s).blockedIPs = s.blockedIPs ∧
    (SecurityMiddleware.recordFailures ip ts s).pendingUnbans = s.pendingUnbans := by
  induction ts with
  | nil =>
    intro s a h hlt
    simpa [SecurityMiddleware.recordFailures] using h
  | cons t rest ih =>
    intro s a h hlt
    have hcond : ¬ (SecurityMiddleware.maxAttempts ≤ a.count + 1 ∧
        t - a.firstAttempt ≤ SecurityMiddleware.banWindowMs) := by
      intro hcontra
      unfold SecurityMiddleware.maxAttempts at hlt hcontra
      simp [List.length_cons] at hlt
      omega
    have hstep : SecurityMiddleware.incrementFailedAttempts t ip s =
        SecState.mk (attemptsSet s.ipAttempts ip (IpAttempts.mk (a.count + 1) a.firstAttempt t))
          s.blockedIPs s.pendingUnbans := by
      unfold SecurityMiddleware.incrementFailedAttempts
      rw [h, Option.getD_some, if_neg hcond]
    have hrec : SecurityMiddleware.recordFailures ip (t :: rest) s =
        SecurityMiddleware.recordFailures ip rest (SecurityMiddleware.incrementFailedAttempts t ip s) := by
      simp [SecurityMiddleware.recordFailures, List.foldl_cons]
    rw [hrec, hstep]
    have hget :
        attemptsGet (SecState.mk (attemptsSet s.ipAttempts ip
          (IpAttempts.mk (a.count + 1) a.firstAttempt t)) s.blockedIPs s.pendingUnbans).ipAttempts
          ip = some (IpAttempts.mk (a.count + 1) a.firstAttempt t) :=
      attemptsGet_attemptsSet _ _ _
    have hlt' : (IpAttempts.mk (a.count + 1) a.firstAttempt t).count + rest.length <
        SecurityMiddleware.maxAttempts := by
      unfold SecurityMiddleware.maxAttempts at hlt ⊢
      simp [List.length_cons] at hlt
      simp only []
      omega
    have := ih _ _ hget hlt'
    refine ⟨?_, this.2.1, this.2.2⟩
    rw [this.1]
    have hcnt : a.count + 1 + rest.length = a.count + (t :: rest).length := by
      simp [List.length_cons]; omega
    have hlast : rest.getLastD t = (t :: rest).getLastD a.lastAttempt := by
      rw [List.getLastD_cons]
    rw [hcnt, hlast]

theorem addBlocked_contains (bl : List String) (ip : String) :
    (addBlocked bl ip).contains ip = true := by
  unfold addBlocked
  by_cases h : bl.contains ip
  · rw [if_pos h]; exact h
  · rw [if_neg h]
    simp

theorem addBlocked_mem (bl : List String) (ip : String) : ip ∈ addBlocked bl ip := by
  unfold addBlocked
  by_cases h : bl.contains ip = true
  · rw [if_pos h]
    simpa using h
  · rw [if_neg h]
    exact List.mem_cons_self ip bl

/-- C5: recording 20 failures for an IP within the 15-minute window
bans it (`Banned`); while banned every request from it is rejected by
`checkIPBlock` regardless of the rate-limit counters; and when the
unban scheduled one hour after the ban fires, both the ban and the
attempt record are gone (`Clean`)
(src/backend/src/middleware/security.js lines 74–87 and 238–262). -/
theorem C5_ban_lifecycle (s0 : SecState) (x : String) (t0 tlast : Nat) (mid : List Nat)
    (hclean1 : attemptsGet s0.ipAttempts x = none)
    (hclean3 : ∀ q ∈ s0.pendingUnbans, q.1 ≠ x)
    (hmid : mid.length = 18)
    (hwin : ∀ t ∈ t0 :: mid ++ [tlast], t0 ≤ t ∧ t ≤ t0 + 900000) :
    SecurityMiddleware.checkIPBlock
      (SecurityMiddleware.recordFailures x (t0 :: mid ++ [tlast]) s0) x = true ∧
    (∀ (counters : List (String × Nat)) (limit : Nat),
      handleRequest (SecurityMiddleware.recordFailures x (t0 :: mid ++ [tlast]) s0)
        counters limit x = RequestOutcome.bannedReject) ∧
    SecurityMiddleware.checkIPBlock
      (SecurityMiddleware.fireUnbansUpTo (tlast + 3600000)
        (SecurityMiddleware.recordFailures x (t0 :: mid ++ [tlast]) s0)) x = false ∧
    attemptsGet
      (SecurityMiddleware.fireUnbansUpTo (tlast + 3600000)
        (SecurityMiddleware.recordFailures x (t0 :: mid ++ [tlast]) s0)).ipAttempts x = none := by
  -- first failure: fresh record ⟨1, t0, t0⟩, no ban
  have hstep1 : SecurityMiddleware.incrementFailedAttempts t0 x s0 =
      SecState.mk (attemptsSet s0.ipAttempts x (IpAttempts.mk 1 t0 t0))
        s0.blockedIPs s0.pendingUnbans := by
    unfold SecurityMiddleware.incrementFailedAttempts
    rw [hclean1]
    simp [SecurityMiddleware.maxAttempts]
  have hsplit : SecurityMiddleware.recordFailures x (t0 :: mid ++ [tlast]) s0 =
      SecurityMiddleware.incrementFailedAttempts tlast x
        (SecurityMiddleware.recordFailures x mid
          (SecState.mk (attemptsSet s0.ipAttempts x (IpAttempts.mk 1 t0 t0))
            s0.blockedIPs s0.pendingUnbans)) := by
    unfold SecurityMiddleware.recordFailures
    simp only [List.foldl_cons, List.foldl_append, List.foldl_nil]
    rw [hstep1]
  -- the 18 middle failures grow the count to 19 without banning
  have hgrow := recordFailures_growth x mid
    (SecState.mk (attemptsSet s0.ipAttempts x (IpAttempts.mk 1 t0 t0))
      s0.blockedIPs s0.pendingUnbans) (IpAttempts.mk 1 t0 t0)
    (attemptsGet_attemptsSet _ _ _)
    (by show 1 + mid.length < SecurityMiddleware.maxAttempts
        unfold SecurityMiddleware.maxAttempts
        omega)
  have h1 : attemptsGet (SecurityMiddleware.recordFailures x mid
      (SecState.mk (attemptsSet s0.ipAttempts x (IpAttempts.mk 1 t0 t0))
        s0.blockedIPs s0.pendingUnbans)).ipAttempts x =
      some (IpAttempts.mk (1 + mid.length) t0 (mid.getLastD t0)) := hgrow.1
  have h2 : (SecurityMiddleware.recordFailures x mid
      (SecState.mk (attemptsSet s0.ipAttempts x (IpAttempts.mk 1 t0 t0))
        s0.blockedIPs s0.pendingUnbans)).blockedIPs = s0.blockedIPs := hgrow.2.1
  have h3 : (SecurityMiddleware.recordFailures x mid
      (SecState.mk (attemptsSet s0.ipAttempts x (IpAttempts.mk 1 t0 t0))
        s0.blockedIPs s0.pendingUnbans)).pendingUnbans = s0.pendingUnbans := hgrow.2.2
  -- the 20th failure crosses the threshold inside the window and bans
  have hcond20 : SecurityMiddleware.maxAttempts ≤
      (IpAttempts.mk (1 + mid.length) t0 (mid.getLastD t0)).count + 1 ∧
      tlast - (IpAttempts.mk (1 + mid.length) t0 (mid.getLastD t0)).firstAttempt ≤
        SecurityMiddleware.banWindowMs := by
    constructor
    · show SecurityMiddleware.maxAttempts ≤ 1 + mid.length + 1
      unfold SecurityMiddleware.maxAttempts
      omega
    · show tlast - t0 ≤ SecurityMiddleware.banWindowMs
      have := hwin tlast (by simp)
      unfold SecurityMiddleware.banWindowMs
      omega
  have hstep20 : SecurityMiddleware.incrementFailedAttempts tlast x
      (SecurityMiddleware.recordFailures x mid
        (SecState.mk (attemptsSet s0.ipAttempts x (IpAttempts.mk 1 t0 t0))
          s0.blockedIPs s0.pendingUnbans)) =
      SecState.mk
        (attemptsSet (SecurityMiddleware.recordFailures x mid
          (SecState.mk (attemptsSet s0.ipAttempts x (IpAttempts.mk 1 t0 t0))
            s0.blockedIPs s0.pendingUnbans)).ipAttempts x
          (IpAttempts.mk (1 + mid.length + 1) t0 tlast))
        (addBlocked s0.blockedIPs x)
        ((x, tlast + SecurityMiddleware.banDurationMs) :: s0.pendingUnbans) := by
    generalize hY : SecurityMiddleware.recordFailures x mid
      (SecState.mk (attemptsSet s0.ipAttempts x (IpAttempts.mk 1 t0 t0))
        s0.blockedIPs s0.pendingUnbans) = Y at h1 h2 h3 ⊢
    unfold SecurityMiddleware.incrementFailedAttempts
    rw [h1, Option.getD_some, if_pos hcond20, h2, h3]
  rw [hsplit, hstep20]
  refine ⟨?_, ?_, ?_, ?_⟩
  · exact addBlocked_contains _ _
  · intro counters limit
    unfold handleRequest SecurityMiddleware.checkIPBlock
    simp [addBlocked_mem]
  · have hdue : SecurityMiddleware.unbanDue ((x, tlast + SecurityMiddleware.banDurationMs) ::
        s0.pendingUnbans) (tlast + 3600000) x = true := by
      simp [SecurityMiddleware.unbanDue, SecurityMiddleware.banDurationMs]
    unfold SecurityMiddleware.checkIPBlock SecurityMiddleware.fireUnbansUpTo
    simp only []
    suffices hx : x ∉ List.filter
        (fun ip => ! SecurityMiddleware.unbanDue ((x, tlast + SecurityMiddleware.banDurationMs) ::
          s0.pendingUnbans) (tlast + 3600000) ip) (addBlocked s0.blockedIPs x) by
      simpa using hx
    intro hmem
    have hp := List.of_mem_filter hmem
    rw [hdue] at hp
    simp at hp
  · have hdue : ∀ ip, ip = x → SecurityMiddleware.unbanDue ((x, tlast + SecurityMiddleware.banDurationMs) ::
        s0.pendingUnbans) (tlast + 3600000) ip = true := by
      intro ip hip
      simp [SecurityMiddleware.unbanDue, hip, SecurityMiddleware.banDurationMs]
    unfold SecurityMiddleware.fireUnbansUpTo attemptsGet
    simp only []
    rw [Option.map_eq_none', List.find?_eq_none]
    intro p hp hpx
    have hpx' : p.1 = x := by simpa using hpx
    have hflt := List.of_mem_filter hp
    rw [hdue p.1 hpx'] at hflt
    simp at hflt

/-- Witness for C5: 20 failures for one IP at times 0, 1..18, 900000
(all inside one 15-minute window) starting from an empty state. -/
theorem C5_witness :
    (attemptsGet (SecState.mk [] [] []).ipAttempts "1.2.3.4" = none) ∧
    (∀ q ∈ (SecState.mk [] [] [] : SecState).pendingUnbans, q.1 ≠ "1.2.3.4") ∧
    ((List.range 18).map (· + 1)).length = 18 ∧
    (∀ t ∈ (0 : Nat) :: ((List.range 18).map (· + 1)) ++ [900000], 0 ≤ t ∧ t ≤ 0 + 900000) ∧
    SecurityMiddleware.checkIPBlock
      (SecurityMiddleware.recordFailures "1.2.3.4"
        ((0 : Nat) :: ((List.range 18).map (· + 1)) ++ [900000]) (SecState.mk [] [] []))
      "1.2.3.4" = true ∧
    SecurityMiddleware.checkIPBlock
      (SecurityMiddleware.fireUnbansUpTo (900000 + 3600000)
        (SecurityMiddleware.recordFailures "1.2.3.4"
          ((0 : Nat) :: ((List.range 18).map (· + 1)) ++ [900000]) (SecState.mk [] [] [])))
      "1.2.3.4" = false := by
  have h := C5_ban_lifecycle (SecState.mk [] [] []) "1.2.3.4" 0 900000
    ((List.range 18).map (· + 1)) (by decide) (by decide) (by decide) (by decide)
  exact ⟨by decide, by decide, by decide, by decide, h.1, h.2.2.1⟩

/-! ## `CryptoFallback` image-type verification (src/unnamed/part_004,
lines 109–183) -/

structure VerifyImageResult where
  (isValid : Bool)
  (fileType : String)
  (fileSize : Nat)
deriving Repr, DecidableEq

namespace CryptoFallback

/-- `_detectImageType(data)`: match the leading bytes against the
JPEG, PNG, GIF, WebP and BMP signatures, in that order. -/
def detectImageType (data : List Nat) : String :=
  if data.length < 8 then ""
  else if data.getD 0 0 = 255 ∧ data.getD 1 0 = 216 ∧ data.getD 2 0 = 255 then "image/jpeg"
  else if data.getD 0 0 = 137 ∧ data.getD 1 0 = 80 ∧ data.getD 2 0 = 78 ∧ data.getD 3 0 = 71 ∧
      data.getD 4 0 = 13 ∧ data.getD 5 0 = 10 ∧ data.getD 6 0 = 26 ∧ data.getD 7 0 = 10 then
    "image/png"
  else if data.take 6 = [71, 73, 70, 56, 55, 97] ∨ data.take 6 = [71, 73, 70, 56, 57, 97] then
    "image/gif"
  else if 12 ≤ data.length ∧ data.take 4 = [82, 73, 70, 70] ∧
      (data.drop 8).take 4 = [87, 69, 66, 80] then "image/webp"
  else if data.getD 0 0 = 66 ∧ data.getD 1 0 = 77 then "image/bmp"
  else ""

/-- `verifyDecryptedImage(decryptedData)` (src/unnamed/part_004 lines
109–125): fewer than 8 bytes is invalid; otherwise valid exactly when a
known image signature is detected. -/
def verifyDecryptedImage (data : List Nat) : VerifyImageResult :=
  if data.length < 8 then VerifyImageResult.mk false "" 0
  else VerifyImageResult.mk (detectImageType data ≠ "") (detectImageType data) data.length

end CryptoFallback

/-- C8: `verifyDecryptedImage` accepts any byte array beginning with the
8-byte PNG signature 89 50 4E 47 0D 0A 1A 0A, and rejects 16 zero bytes
(src/unnamed/part_004 lines 109–183). -/
theorem C8_verifyDecryptedImage_png_and_zeros :
    (∀ rest : List Nat,
      (CryptoFallback.verifyDecryptedImage
        ([137, 80, 78, 71, 13, 10, 26, 10] ++ rest)).isValid = true) ∧
    (CryptoFallback.verifyDecryptedImage (List.replicate 16 0)).isValid = false := by
  constructor
  · intro rest
    have h8 : ¬ (([137, 80, 78, 71, 13, 10, 26, 10] ++ rest : List Nat).length < 8) := by
      simp only [List.length_append, List.length_cons, List.length_nil]
      omega
    have hd : CryptoFallback.detectImageType ([137, 80, 78, 71, 13, 10, 26, 10] ++ rest) =
        "image/png" := by
      simp [CryptoFallback.detectImageType, List.getD, h8]
    simp only [CryptoFallback.verifyDecryptedImage]
    rw [if_neg h8]
    have hd2 : CryptoFallback.detectImageType
        (137 :: 80 :: 78 :: 71 :: 13 :: 10 :: 26 :: 10 :: rest) = "image/png" := hd
    simp [hd2]
  · decide

/-! ## Client-side input validation (`CryptoFallback._validateDecryptionInputs`
and `decryptImage`, src/unnamed/part_005 lines 22-105; the identically-ordered
checks appear in `ImageDecryptor._validateDecryptionInputs`,
src/frontend/src/js/imageDecryptor.js lines 443-511) -/

/-- The two classes of error raised by the client-side `decryptImage`:
validation errors are thrown by `_validateDecryptionInputs` before the `try`
block and surface unwrapped (`invalidInput`); every error thrown inside the
`try` block is wrapped by `catch` into `CryptoJS解密失败: ...`
(`decryptionFailed`). In `imageDecryptor.js` the same two classes are AppError
tags (validation vs cipher-level). -/
inductive FrontendError where
  | invalidInput (msg : String)
  | decryptionFailed (msg : String)
deriving Repr, DecidableEq

/-- JavaScript `String.prototype.trim` whitespace test, restricted to the
common whitespace characters. -/
def isJsSpace (c : Char) : Bool :=
  c = ' ' || c = '\t' || c = '\n' || c = '\r'

/-- `s.trim()`: strip whitespace from both ends. -/
def jsTrim (s : List Char) : List Char :=
  ((s.dropWhile isJsSpace).reverse.dropWhile isJsSpace).reverse

namespace CryptoFallbackCfg

/-- `_validateDecryptionInputs(encryptedData, keyBase64, ivBase64)`
(src/unnamed/part_005 lines 69-105). `atob` is the browser's base64 decoder,
modelled from the spec (RFC 4648) by `base64Decode`. The inner
`密钥长度必须为32字节` / `IV长度必须为16字节` throws are swallowed by the
surrounding `catch`, which rethrows `密钥Base64格式无效` / `IV Base64格式无效`,
so a wrong-length decode surfaces with the Base64-format message. -/
def validateDecryptionInputs (encryptedData : List Nat) (keyBase64 ivBase64 : List Char) :
    Option FrontendError :=
  if encryptedData.length = 0 then some (.invalidInput "加密数据不能为空")
  else if jsTrim keyBase64 = [] then some (.invalidInput "密钥不能为空")
  else if jsTrim ivBase64 = [] then some (.invalidInput "IV不能为空")
  else
    match base64Decode keyBase64 with
    | none => some (.invalidInput "密钥Base64格式无效")
    | some keyBytes =>
      if keyBytes.length ≠ 32 then some (.invalidInput "密钥Base64格式无效")
      else
        match base64Decode ivBase64 with
        | none => some (.invalidInput "IV Base64格式无效")
        | some ivBytes =>
          if ivBytes.length ≠ 16 then some (.invalidInput "IV Base64格式无效")
          else if encryptedData.length % 16 ≠ 0 then
            some (.invalidInput "加密数据长度必须是16字节的倍数")
          else none

/-- `decryptImage(encryptedData, keyBase64, ivBase64)` (src/unnamed/part_005
lines 22-63): validation runs before the `try` block, so its errors propagate
unwrapped; everything inside the `try` (CryptoJS parse, redundant length
checks, AES-256-CBC decryption — the cipher itself is library code, modelled
from the spec by `ImageCrypto.decryptImage` — and the empty-result check) is
wrapped by the `catch` into `CryptoJS解密失败: ...`. -/
def decryptImage (encryptedData : List Nat) (keyBase64 ivBase64 : List Char) :
    Except FrontendError (List Nat) :=
  match validateDecryptionInputs encryptedData keyBase64 ivBase64 with
  | some e => .error e
  | none =>
    match base64Decode keyBase64, base64Decode ivBase64 with
    | some key, some iv =>
      if key.length ≠ 32 then
        .error (.decryptionFailed "CryptoJS解密失败: 密钥长度必须为32字节")
      else if iv.length ≠ 16 then
        .error (.decryptionFailed "CryptoJS解密失败: IV长度必须为16字节")
      else
        match ImageCrypto.decryptImage encryptedData key iv with
        | some plain =>
          if plain.length = 0 then
            .error (.decryptionFailed "CryptoJS解密失败: 解密结果为空或无效")
          else .ok plain
        | none => .error (.decryptionFailed "CryptoJS解密失败: 解密结果为空或无效")
    | _, _ => .error (.decryptionFailed "CryptoJS解密失败: Base64解析失败")

end CryptoFallbackCfg

theorem validateDecryptionInputs_invalidInput (d : List Nat) (k i : List Char)
    (e : FrontendError) (h : CryptoFallbackCfg.validateDecryptionInputs d k i = some e) :
    ∃ m, e = FrontendError.invalidInput m := by
  unfold CryptoFallbackCfg.validateDecryptionInputs at h
  by_cases h0 : d.length = 0
  · rw [if_pos h0] at h; injection h with h2; exact ⟨_, h2.symm⟩
  rw [if_neg h0] at h
  by_cases h1 : jsTrim k = []
  · rw [if_pos h1] at h; injection h with h2; exact ⟨_, h2.symm⟩
  rw [if_neg h1] at h
  by_cases h2 : jsTrim i = []
  · rw [if_pos h2] at h; injection h with h3; exact ⟨_, h3.symm⟩
  rw [if_neg h2] at h
  cases hk : base64Decode k with
  | none => simp only [hk] at h; injection h with h3; exact ⟨_, h3.symm⟩
  | some kb =>
    simp only [hk] at h
    by_cases hk32 : kb.length ≠ 32
    · rw [if_pos hk32] at h; injection h with h3; exact ⟨_, h3.symm⟩
    rw [if_neg hk32] at h
    cases hi : base64Decode i with
    | none => simp only [hi] at h; injection h with h3; exact ⟨_, h3.symm⟩
    | some ib =>
      simp only [hi] at h
      by_cases hi16 : ib.length ≠ 16
      · rw [if_pos hi16] at h; injection h with h3; exact ⟨_, h3.symm⟩
      rw [if_neg hi16] at h
      by_cases hm : d.length % 16 ≠ 0
      · rw [if_pos hm] at h; injection h with h3; exact ⟨_, h3.symm⟩
      rw [if_neg hm] at h
      exact Option.noConfusion h

theorem validateDecryptionInputs_none (d : List Nat) (k i : List Char)
    (h : CryptoFallbackCfg.validateDecryptionInputs d k i = none) :
    (∃ kb, base64Decode k = some kb ∧ kb.length = 32) ∧
    (∃ ib, base64Decode i = some ib ∧ ib.length = 16) ∧
    d.length % 16 = 0 := by
  unfold CryptoFallbackCfg.validateDecryptionInputs at h
  by_cases h0 : d.length = 0
  · rw [if_pos h0] at h; exact Option.noConfusion h
  rw [if_neg h0] at h
  by_cases h1 : jsTrim k = []
  · rw [if_pos h1] at h; exact Option.noConfusion h
  rw [if_neg h1] at h
  by_cases h2 : jsTrim i = []
  · rw [if_pos h2] at h; exact Option.noConfusion h
  rw [if_neg h2] at h
  cases hk : base64Decode k with
  | none => simp only [hk] at h; exact Option.noConfusion h
  | some kb =>
    simp only [hk] at h
    by_cases hk32 : kb.length ≠ 32
    · rw [if_pos hk32] at h; exact Option.noConfusion h
    rw [if_neg hk32] at h
    cases hi : base64Decode i with
    | none => simp only [hi] at h; exact Option.noConfusion h
    | some ib =>
      simp only [hi] at h
      by_cases hi16 : ib.length ≠ 16
      · rw [if_pos hi16] at h; exact Option.noConfusion h
      rw [if_neg hi16] at h
      by_cases hm : d.length % 16 ≠ 0
      · rw [if_pos hm] at h; exact Option.noConfusion h
      rw [if_neg hm] at h
      exact ⟨⟨kb, rfl, by omega⟩, ⟨ib, rfl, by omega⟩, by omega⟩

theorem cryptoFallback_decryptImage_of_validate (d : List Nat) (k i : List Char)
    (e : FrontendError) (h : CryptoFallbackCfg.validateDecryptionInputs d k i = some e) :
    CryptoFallbackCfg.decryptImage d k i = .error e := by
  unfold CryptoFallbackCfg.decryptImage
  rw [h]

/-- C6: the client-side `decryptImage` validates its inputs before any
decryption is attempted: if the base64-decoded key is not exactly 32 bytes,
or the decoded IV is not exactly 16 bytes, or the ciphertext length is not a
multiple of 16, the call fails with an `invalidInput`-class error — which is
distinct, as a value, from every cipher-level `decryptionFailed` error
(src/unnamed/part_005 lines 22-105; src/frontend/src/js/imageDecryptor.js
lines 443-511). -/
theorem C6_input_validation (d : List Nat) (k i : List Char) :
    ((∀ kb, base64Decode k = some kb → kb.length ≠ 32) →
      ∃ m, CryptoFallbackCfg.decryptImage d k i = .error (.invalidInput m)) ∧
    ((∀ ib, base64Decode i = some ib → ib.length ≠ 16) →
      ∃ m, CryptoFallbackCfg.decryptImage d k i = .error (.invalidInput m)) ∧
    (d.length % 16 ≠ 0 →
      ∃ m, CryptoFallbackCfg.decryptImage d k i = .error (.invalidInput m)) ∧
    (∀ m m', FrontendError.invalidInput m ≠ FrontendError.decryptionFailed m') := by
  have main : CryptoFallbackCfg.validateDecryptionInputs d k i ≠ none →
      ∃ m, CryptoFallbackCfg.decryptImage d k i = .error (.invalidInput m) := by
    intro hne
    cases hv : CryptoFallbackCfg.validateDecryptionInputs d k i with
    | none => exact absurd hv hne
    | some e =>
      obtain ⟨m, rfl⟩ := validateDecryptionInputs_invalidInput d k i e hv
      exact ⟨m, cryptoFallback_decryptImage_of_validate d k i _ hv⟩
  refine ⟨?_, ?_, ?_, ?_⟩
  · intro hk
    refine main ?_
    intro hv
    obtain ⟨⟨kb, hkb, h32⟩, _, _⟩ := validateDecryptionInputs_none d k i hv
    exact hk kb hkb h32
  · intro hi
    refine main ?_
    intro hv
    obtain ⟨_, ⟨ib, hib, h16⟩, _⟩ := validateDecryptionInputs_none d k i hv
    exact hi ib hib h16
  · intro hm
    refine main ?_
    intro hv
    obtain ⟨_, _, hmod⟩ := validateDecryptionInputs_none d k i hv
    exact hm hmod
  · intro m m' hcontra
    exact FrontendError.noConfusion hcontra

theorem C6_witness :
    ∃ m, CryptoFallbackCfg.decryptImage (List.replicate 17 0) "QUJD".toList "QUJD".toList =
      .error (.invalidInput m) :=
  (C6_input_validation (List.replicate 17 0) "QUJD".toList "QUJD".toList).2.2.1 (by decide)

/-! ## Fallback dispatch (`ErrorHandler.handleWithFallback` and
`ErrorHandler._shouldFallback`, src/frontend/src/js/errorHandler.js
lines 145-183 and 370-390) -/

/-- An `AppError` as far as the fallback logic observes it: the message, the
`type` tag (one of the `ErrorTypes` string constants), and — for the combined
error built when both backends fail — the `originalError` field carrying the
primary and fallback error messages. -/
structure AppErrorM where
  (message : String)
  (etype : String)
  (contexts : Option (String × String))
deriving Repr, DecidableEq

namespace ErrorHandler

/-- `_shouldFallback(error)` (errorHandler.js lines 370-390): no fallback for
the four listed types nor for timeouts; everything else may fall back. -/
def noFallbackTypes : List String :=
  ["INVALID_KEY", "INVALID_IV", "BROWSER_NOT_SUPPORTED", "INSUFFICIENT_MEMORY"]

def shouldFallback (e : AppErrorM) : Bool :=
  if noFallbackTypes.contains e.etype then false
  else if e.etype = "TIMEOUT_ERROR" then false
  else true

/-- `handleWithFallback(primaryAction, fallbackAction)` (errorHandler.js lines
145-183), abstracted over the two actions' outcomes; the second component
counts how many times the fallback action was invoked. `handleError` /
`_normalizeError` only record and re-tag: every error escaping the WASM
primary action of `ImageDecryptor.decryptImage` is already an `AppError`, on
which `_normalizeError` is the identity. When both actions fail, the
rejected value is the combined `AppError`(`主要操作和降级操作都失败`,
`UNKNOWN_ERROR`) whose `originalError` holds both underlying errors. -/
def handleWithFallback (primary : Except AppErrorM (List Nat))
    (fallback : Except AppErrorM (List Nat)) : Except AppErrorM (List Nat) × Nat :=
  match primary with
  | .ok v => (.ok v, 0)
  | .error pe =>
    if shouldFallback pe then
      match fallback with
      | .ok v => (.ok v, 1)
      | .error fe =>
        (.error (AppErrorM.mk "主要操作和降级操作都失败" "UNKNOWN_ERROR"
          (some (pe.message, fe.message))), 1)
    else (.error pe, 0)

/-- The `error.type` values that can escape the accelerated (WASM) primary
action of `ImageDecryptor.decryptImage` (src/frontend/src/js/imageDecryptor.js
lines 95-157): `WASM_INIT_FAILED` (decryptor not initialised),
`UNKNOWN_ERROR` (input validation: `ErrorTypes.INVALID_INPUT` is not among
the `ErrorTypes` constants, so the `AppError` constructor falls back to its
default tag), `WASM_EXECUTION_FAILED` (wrapped WASM failures),
`DECRYPTION_FAILED` (empty result), `VALIDATION_FAILED` (result verification),
and `TIMEOUT_ERROR` (timeouts). -/
def wasmPrimaryTypes : List String :=
  ["WASM_INIT_FAILED", "UNKNOWN_ERROR", "WASM_EXECUTION_FAILED",
   "DECRYPTION_FAILED", "VALIDATION_FAILED", "TIMEOUT_ERROR"]

end ErrorHandler

/-- C7: for a `decryptImage` call in accelerated (WASM) mode — i.e. the
primary error carries one of the types that path can throw — a primary
failure other than timeout runs the interpreted fallback exactly once; a
timeout failure is rejected as-is with the fallback never invoked; and when
both backends fail, the surfaced combined error carries both the primary and
the fallback messages (src/frontend/src/js/errorHandler.js lines 145-183,
370-390). -/
theorem C7_fallback_dispatch (pe : AppErrorM) (fb : Except AppErrorM (List Nat))
    (hty : pe.etype ∈ ErrorHandler.wasmPrimaryTypes) :
    (pe.etype ≠ "TIMEOUT_ERROR" →
      (ErrorHandler.handleWithFallback (.error pe) fb).2 = 1) ∧
    (pe.etype = "TIMEOUT_ERROR" →
      ErrorHandler.handleWithFallback (.error pe) fb = (.error pe, 0)) ∧
    (∀ fe, fb = .error fe → pe.etype ≠ "TIMEOUT_ERROR" →
      (ErrorHandler.handleWithFallback (.error pe) fb).1 =
        .error (AppErrorM.mk "主要操作和降级操作都失败" "UNKNOWN_ERROR"
          (some (pe.message, fe.message)))) := by
  have hsf : pe.etype ≠ "TIMEOUT_ERROR" → ErrorHandler.shouldFallback pe = true := by
    intro hne
    simp only [ErrorHandler.wasmPrimaryTypes, List.mem_cons, List.not_mem_nil,
      or_false] at hty
    unfold ErrorHandler.shouldFallback ErrorHandler.noFallbackTypes
    rcases hty with h | h | h | h | h | h <;>
      first
        | exact absurd h hne
        | (rw [h]; decide)
  have hsf0 : pe.etype = "TIMEOUT_ERROR" → ErrorHandler.shouldFallback pe = false := by
    intro heq
    unfold ErrorHandler.shouldFallback ErrorHandler.noFallbackTypes
    rw [heq]
    decide
  refine ⟨?_, ?_, ?_⟩
  · intro hne
    simp only [ErrorHandler.handleWithFallback]
    rw [if_pos (hsf hne)]
    cases fb <;> rfl
  · intro heq
    simp only [ErrorHandler.handleWithFallback]
    rw [if_neg (by rw [hsf0 heq]; exact Bool.false_ne_true)]
  · intro fe hfe hne
    subst hfe
    simp only [ErrorHandler.handleWithFallback]
    rw [if_pos (hsf hne)]

theorem C7_witness :
    (ErrorHandler.handleWithFallback
        (.error (AppErrorM.mk "WASM解密失败: 内部错误" "WASM_EXECUTION_FAILED" none))
        (.error (AppErrorM.mk "CryptoJS解密失败: 解密结果为空或无效" "UNKNOWN_ERROR" none))).2
      = 1 ∧
    ErrorHandler.handleWithFallback
        (.error (AppErrorM.mk "解密超时" "TIMEOUT_ERROR" none)) (.ok [1]) =
      (.error (AppErrorM.mk "解密超时" "TIMEOUT_ERROR" none), 0) ∧
    (ErrorHandler.handleWithFallback
        (.error (AppErrorM.mk "WASM解密失败: 内部错误" "WASM_EXECUTION_FAILED" none))
        (.error (AppErrorM.mk "CryptoJS解密失败: 解密结果为空或无效" "UNKNOWN_ERROR" none))).1
      = .error (AppErrorM.mk "主要操作和降级操作都失败" "UNKNOWN_ERROR"
          (some ("WASM解密失败: 内部错误", "CryptoJS解密失败: 解密结果为空或无效"))) :=
  ⟨(C7_fallback_dispatch
      (AppErrorM.mk "WASM解密失败: 内部错误" "WASM_EXECUTION_FAILED" none)
      (.error (AppErrorM.mk "CryptoJS解密失败: 解密结果为空或无效" "UNKNOWN_ERROR" none))
      (by decide)).1 (by decide),
   (C7_fallback_dispatch
      (AppErrorM.mk "解密超时" "TIMEOUT_ERROR" none) (.ok [1]) (by decide)).2.1 (by decide),
   (C7_fallback_dispatch
      (AppErrorM.mk "WASM解密失败: 内部错误" "WASM_EXECUTION_FAILED" none)
      (.error (AppErrorM.mk "CryptoJS解密失败: 解密结果为空或无效" "UNKNOWN_ERROR" none))
      (by decide)).2.2
      (AppErrorM.mk "CryptoJS解密失败: 解密结果为空或无效" "UNKNOWN_ERROR" none)
      rfl (by decide)⟩
